import Mathlib

/-!
Shallow embedding of the `lazy-img` custom element (src/lazy-img.js) and of its
shared-observer pools, qualification resolver, debounce gate and lifecycle
callbacks.  JS strings are modelled as `List Char`, JS numbers that matter to
the claims as exact values (`Int` for pixel sizes, an explicit normalised
fraction type `Frac` for intersection thresholds; floating point rounding is
abstracted away, which is sound for every claim below since none depends on
binary rounding).  DOM side effects (console warnings, dispatched events,
rendered shadow-DOM `img` attributes) are materialised as explicit fields or
returned lists.
-/

/-- JS strings are modelled as lists of characters. -/
abbrev JStr := List Char

/-- Whitespace in the sense of the JS regex class and of trimming
(ASCII fragment, which covers every string the claims touch). -/
def isWsChar (c : Char) : Bool :=
  c = ' ' || c = '\t' || c = '\n' || c = '\r' || c = '\x0b' || c = '\x0c'

/-- Model of JS String.prototype.trim. -/
def jsTrim (s : JStr) : JStr :=
  ((s.dropWhile isWsChar).reverse.dropWhile isWsChar).reverse

/-- Model of JS String.prototype.split(',') - used for named-breakpoints. -/
def splitComma : JStr → List JStr
  | [] => [[]]
  | c :: r =>
    if c = ',' then [] :: splitComma r
    else
      match splitComma r with
      | h :: t => (c :: h) :: t
      | [] => [[c]]

/-- Numeric value of a decimal digit character. -/
def charVal (c : Char) : Nat := c.toNat - 48

/-- Value of a string of decimal digits (most significant first). -/
def digitsToNat (ds : List Char) : Nat :=
  ds.foldl (fun a c => 10 * a + charVal c) 0

/-- Fuel-driven decimal printer (structural, so the kernel can evaluate it). -/
def natStrGo : Nat → Nat → List Char
  | 0, _ => []
  | fuel + 1, n =>
    if n < 10 then [Nat.digitChar n]
    else natStrGo fuel (n / 10) ++ [Nat.digitChar (n % 10)]

/-- Decimal representation of a natural number, as produced by JS number
to-string conversion on a non-negative integer. -/
def natStr (n : Nat) : List Char := natStrGo (n + 1) n

/-- Model of JS parseInt(s, 10): skip leading whitespace, optional sign, then
the maximal prefix of decimal digits; no digits means NaN (`none`). -/
def jsParseInt (s : JStr) : Option Int :=
  let s1 := s.dropWhile isWsChar
  let (neg, s2) :=
    match s1 with
    | '-' :: r => (true, r)
    | '+' :: r => (false, r)
    | _ => (false, s1)
  let ds := s2.takeWhile Char.isDigit
  if ds.isEmpty then none
  else some (if neg then -(digitsToNat ds : Int) else (digitsToNat ds : Int))

/-- JS Set.add: insert if absent, preserving insertion order. -/
def addUnique (l : List Nat) (x : Nat) : List Nat :=
  if x ∈ l then l else l ++ [x]

/-- Association-list lookup (JS Map.get / getAttribute). -/
def getKV {κ α : Type} [DecidableEq κ] : List (κ × α) → κ → Option α
  | [], _ => none
  | (k, v) :: r, q => if q = k then some v else getKV r q

/-- Association-list store (JS Map.set / setAttribute): replace in place,
append if new. -/
def setKV {κ α : Type} [DecidableEq κ] (l : List (κ × α)) (k : κ) (v : α) :
    List (κ × α) :=
  match l with
  | [] => [(k, v)]
  | (k0, v0) :: r =>
    if k = k0 then (k0, v) :: r else (k0, v0) :: setKV r k v

/-- Association-list delete (JS Map.delete / removeAttribute). -/
def remKV {κ α : Type} [DecidableEq κ] : List (κ × α) → κ → List (κ × α)
  | [], _ => []
  | (k0, v0) :: r, k =>
    if k0 = k then remKV r k else (k0, v0) :: remKV r k

/-- Update the value stored under a key, if present. -/
def modKV {κ α : Type} [DecidableEq κ] : List (κ × α) → κ → (α → α) →
    List (κ × α)
  | [], _, _ => []
  | (k0, v0) :: r, k, f =>
    if k0 = k then (k0, f v0) :: modKV r k f else (k0, v0) :: modKV r k f

/-- Fuel-driven gcd (structural recursion, kernel-evaluable). -/
def gcdGo : Nat → Nat → Nat → Nat
  | 0, _, b => b
  | fuel + 1, a, b => if a = 0 then b else gcdGo fuel (b % a) a

/-- Greatest common divisor computed with enough fuel. -/
def natGcd (a b : Nat) : Nat := gcdGo (a + 1) a b

/-- Exact fraction: the model of the JS numbers used as intersection
thresholds.  Always kept normalised via `fracMk`, so that structural equality
coincides with numeric equality (as it does for JS numbers used as map keys). -/
structure Frac where
  num : Int
  den : Nat
deriving DecidableEq

/-- Normalising constructor for `Frac` (denominator assumed positive). -/
def fracMk (n : Int) (d : Nat) : Frac :=
  let g := natGcd n.natAbs d
  if g = 0 then ⟨n, d⟩ else ⟨n / (g : Int), d / g⟩

/-- Comparison of fractions with positive denominators. -/
def fracLe (a b : Frac) : Bool := a.num * (b.den : Int) ≤ b.num * (a.den : Int)

/-- The fraction zero. -/
def fracZero : Frac := ⟨0, 1⟩

/-- Powers of ten. -/
def pow10 : Nat → Nat
  | 0 => 1
  | k + 1 => 10 * pow10 k

/-- Value denoted by an optionally negated decimal numeral with optional
fractional digits, exactly as JS parseFloat evaluates the regex group
matched in parseViewRange. -/
def mkNum (neg : Bool) (i : Nat) (fs : List Char) : Frac :=
  let k := fs.length
  let n : Int := ((i * pow10 k + digitsToNat fs : Nat) : Int)
  ⟨if neg then -n else n, pow10 k⟩

/-- Diagnostic warning kinds emitted through console.warn. -/
inductive Warn where
  | missingBreakpointSignal
  | invalidSizeThreshold
  | invalidViewRangeFormat
  | outOfRangePercentage
deriving DecidableEq

/-- Result type of parseViewRange: IntersectionObserver options. -/
structure ViewRange where
  rootMargin : JStr
  threshold : Frac
deriving DecidableEq

/-- Recognise the mandatory head of both view-range patterns:
the literal "entry" followed by at least one whitespace character
(regex fragment `^entry\s+`); returns the remainder after the whitespace. -/
def entryHead (cs : JStr) : Option JStr :=
  match cs with
  | 'e' :: 'n' :: 't' :: 'r' :: 'y' :: rest =>
    if (rest.takeWhile isWsChar).isEmpty then none
    else some (rest.dropWhile isWsChar)
  | _ => none

/-- Parse the regex group `-?\d+(?:\.\d+)?` at the front of the input,
returning its exact value and the remaining characters.  When a dot is not
followed by a digit the optional fractional group does not participate, as
with regex backtracking. -/
def numTail (cs : JStr) : Option (Frac × JStr) :=
  let ns :=
    match cs with
    | c :: r => if c = '-' then (true, r) else (false, cs)
    | [] => (false, cs)
  let neg := ns.1
  let c1 := ns.2
  let ds := c1.takeWhile Char.isDigit
  if ds.isEmpty then none
  else
    let i := digitsToNat ds
    match c1.dropWhile Char.isDigit with
    | '.' :: r2 =>
      let fs := r2.takeWhile Char.isDigit
      if fs.isEmpty then some (mkNum neg i [], '.' :: r2)
      else some (mkNum neg i fs, r2.dropWhile Char.isDigit)
    | rest1 => some (mkNum neg i [], rest1)

/-- Match the full pattern `^entry\s+(-?\d+(?:\.\d+)?)%$`, returning the
percentage value. -/
def matchPercent (cs : JStr) : Option Frac :=
  match entryHead cs with
  | none => none
  | some r =>
    match numTail r with
    | none => none
    | some (q, rest) => if rest = ['%'] then some q else none

/-- Match the full pattern `^entry\s+(-\d+)px$`, returning the magnitude of
the (necessarily negative) pixel count, i.e. Math.abs of the parsed integer. -/
def matchPx (cs : JStr) : Option Nat :=
  match entryHead cs with
  | none => none
  | some r =>
    match r with
    | '-' :: r1 =>
      let ds := r1.takeWhile Char.isDigit
      if ds.isEmpty then none
      else if r1.dropWhile Char.isDigit = ['p', 'x'] then
        some (digitsToNat ds)
      else none
    | _ => none

/-- Default IntersectionObserver options used by parseViewRange. -/
def viewRangeDefaults : ViewRange := ⟨"0px".toList, fracZero⟩

/-- Root margin string built for the preload pattern:
template literal `0px 0px ${Math.abs(pixels)}px 0px`. -/
def pxMargin (n : Nat) : JStr :=
  "0px 0px ".toList ++ natStr n ++ "px 0px".toList

/-- Model of parseViewRange (src/lazy-img.js lines 72-109): maps the
view-range-start attribute value to IntersectionObserver options plus an
optional diagnostic warning. -/
def parseViewRange (rangeValue : JStr) : ViewRange × Option Warn :=
  if rangeValue.isEmpty then (viewRangeDefaults, none)
  else
    let trimmed := jsTrim rangeValue
    match matchPercent trimmed with
    | some percent =>
      if fracLe fracZero percent && fracLe percent ⟨100, 1⟩ then
        (⟨"0px".toList, fracMk percent.num (percent.den * 100)⟩, none)
      else (viewRangeDefaults, some .outOfRangePercentage)
    | none =>
      match matchPx trimmed with
      | some pixels => (⟨pxMargin pixels, fracZero⟩, none)
      | none => (viewRangeDefaults, some .invalidViewRangeFormat)

/-- Attributes passed through to the inner img element
(LazyImgElement.IMG_ATTRIBUTES). -/
def IMG_ATTRIBUTES : List String :=
  ["src", "alt", "srcset", "sizes", "width", "height", "loading",
   "decoding", "fetchpriority", "crossorigin", "referrerpolicy"]

/-- Source attributes frozen once the image is loaded
(LazyImgElement.SOURCE_ATTRIBUTES). -/
def SOURCE_ATTRIBUTES : List String := ["src", "srcset", "sizes"]

/-- Attributes controlling lazy-img behaviour
(LazyImgElement.CONFIG_ATTRIBUTES). -/
def CONFIG_ATTRIBUTES : List String :=
  ["min-inline-size", "named-breakpoints", "query", "view-range-start"]

/-- observedAttributes: the attributes whose mutation fires
attributeChangedCallback. -/
def OBSERVED_ATTRIBUTES : List String := IMG_ATTRIBUTES ++ CONFIG_ATTRIBUTES

/-- JS truthiness of a string-or-null value (null and the empty string are
falsy). -/
def truthyS (o : Option JStr) : Bool :=
  match o with
  | some s => !s.isEmpty
  | none => false

/-- State of one LazyImgElement instance.  Host attributes, the cached
configuration fields of the constructor, the rendered shadow img (as its
attribute list, `none` when absent) and the log of dispatched
lazy-img:loaded events (their detail.src payloads). -/
structure Elem where
  attrs : List (String × JStr)
  loaded : Bool
  queryType : JStr
  namedBreakpoints : Option JStr
  minInlineSize : Option JStr
  parsedBreakpoints : Option (List JStr)
  currentSize : Option Int
  styleInjected : Bool
  img : Option (List (String × JStr))
  events : List JStr
deriving DecidableEq

/-- getAttribute on the host element. -/
def getAttr (e : Elem) (name : String) : Option JStr := getKV e.attrs name

/-- escapeHtml: textContent assigned to a div and read back through
innerHTML, which escapes ampersands and angle brackets. -/
def escapeHtml (s : JStr) : JStr :=
  s.flatMap (fun c =>
    if c = '&' then "&amp;".toList
    else if c = '<' then "&lt;".toList
    else if c = '>' then "&gt;".toList
    else [c])

/-- One entry of the attribute object built by _getImgAttributes: present
attributes are escaped, and alt always defaults to the empty string. -/
def imgAttrEntry (e : Elem) (attr : String) : Option (String × JStr) :=
  match getAttr e attr with
  | some v => some (attr, escapeHtml v)
  | none => if attr = "alt" then some ("alt", []) else none

/-- _getImgAttributes: gather the img-specific attributes in declaration
order. -/
def getImgAttributes (e : Elem) : List (String × JStr) :=
  IMG_ATTRIBUTES.filterMap (imgAttrEntry e)

/-- render (src/lazy-img.js lines 573-627): project the current state into
the shadow img.  With a falsy src - absent or the empty string, as the
`if (!src)` guard tests JS truthiness - the img is removed; otherwise the
img is shown when loaded, or when no loading condition is configured
outside view mode; an existing img is updated attribute by attribute. -/
def render (e : Elem) : Elem :=
  match getAttr e "src" with
  | none => { e with img := none }
  | some src =>
    if src.isEmpty then { e with img := none }
    else
    let e1 := { e with styleInjected := true }
    let shouldRenderImage :=
      e1.loaded ||
        (!(e1.queryType = "view".toList) && !(truthyS e1.minInlineSize) &&
          !(truthyS e1.namedBreakpoints))
    if shouldRenderImage then
      let imgAttrs := getImgAttributes e1
      match e1.img with
      | some existing =>
        { e1 with
          img := some (imgAttrs.foldl (fun acc p => setKV acc p.1 p.2) existing) }
      | none => { e1 with img := some imgAttrs }
    else { e1 with img := none }

/-- The condition-resolution core of _updateQualifies (non-view branches):
named breakpoints take precedence over the size threshold; with neither set
the element always qualifies.  `activeMQ` is the raw value of the
--lazy-img-mq custom property, trimmed exactly as getActiveMQ does. -/
def resolveQualifies (e : Elem) (activeMQ : JStr) : Bool × List Warn :=
  match e.parsedBreakpoints with
  | some breakpoints =>
    let active := jsTrim activeMQ
    if active.isEmpty then (false, [.missingBreakpointSignal])
    else (decide (active ∈ breakpoints), [])
  | none =>
    if truthyS e.minInlineSize then
      match jsParseInt (e.minInlineSize.getD []) with
      | none => (false, [.invalidSizeThreshold])
      | some minSize => (decide (e.currentSize.getD 0 ≥ minSize), [])
    else (true, [])

/-- _updateQualifies (src/lazy-img.js lines 489-536): in view mode return
true without touching the qualifies attribute; otherwise resolve the
condition and reflect it into the qualifies attribute. -/
def updateQualifies (e : Elem) (activeMQ : JStr) : Elem × Bool × List Warn :=
  if e.queryType = "view".toList then (e, true, [])
  else
    let (q, w) := resolveQualifies e activeMQ
    if q then ({ e with attrs := setKV e.attrs "qualifies" [] }, q, w)
    else ({ e with attrs := remKV e.attrs "qualifies" }, q, w)

/-- _loadImage (src/lazy-img.js lines 553-571): bail on a falsy src -
absent or empty, the `if (!src)` guard tests JS truthiness; otherwise
set the loaded flag and attribute, re-render, and dispatch
lazy-img:loaded carrying the src. -/
def loadImage (e : Elem) : Elem :=
  match getAttr e "src" with
  | none => e
  | some src =>
    if src.isEmpty then e
    else
    let e1 := { e with loaded := true }
    let e2 := { e1 with attrs := setKV e1.attrs "loaded" [] }
    let e3 := render e2
    { e3 with events := e3.events ++ [src] }

/-- _checkAndLoad composed with _shouldLoad (src/lazy-img.js lines 538-551):
update qualifies, then load exactly when the element qualifies and is not
yet loaded. -/
def checkAndLoad (e : Elem) (activeMQ : JStr) : Elem × List Warn :=
  let (e1, q, w) := updateQualifies e activeMQ
  if q && !e1.loaded then (loadImage e1, w) else (e1, w)

/-- The cached-field refresh at the top of attributeChangedCallback
(src/lazy-img.js lines 336-347). -/
def applyConfigCache (e : Elem) (name : String) (newV : Option JStr) : Elem :=
  if name = "named-breakpoints" then
    { e with
      namedBreakpoints := newV
      parsedBreakpoints :=
        if truthyS newV then some ((splitComma (newV.getD [])).map jsTrim)
        else none }
  else if name = "min-inline-size" then { e with minInlineSize := newV }
  else if name = "query" then
    { e with queryType := if truthyS newV then newV.getD [] else "container".toList }
  else e

/-- The body of attributeChangedCallback (src/lazy-img.js lines 334-374),
entered when the value actually changed: refresh the cached fields, then
apply the loaded-state policy, re-render, and on configuration changes reset
the loaded flag and re-check. -/
def attributeChanged (e : Elem) (name : String) (newV : Option JStr)
    (activeMQ : JStr) : Elem × List Warn :=
  let e1 := applyConfigCache e name newV
  if e1.loaded ∧ name ∈ SOURCE_ATTRIBUTES then (e1, [])
  else if e1.loaded ∧ name ∈ IMG_ATTRIBUTES then (render e1, [])
  else if e1.loaded ∧ name ≠ "query" then (e1, [])
  else
    let e2 := render e1
    if name ∈ CONFIG_ATTRIBUTES then
      checkAndLoad { e2 with loaded := false } activeMQ
    else (e2, [])

/-- A host-attribute mutation: the DOM updates the attribute, then
attributeChangedCallback fires for observed attributes whose value actually
changed. -/
def mutateAttribute (e : Elem) (name : String) (newV : Option JStr)
    (activeMQ : JStr) : Elem × List Warn :=
  let oldV := getAttr e name
  let e1 :=
    match newV with
    | some v => { e with attrs := setKV e.attrs name v }
    | none => { e with attrs := remKV e.attrs name }
  if name ∈ OBSERVED_ATTRIBUTES ∧ oldV ≠ newV then
    attributeChanged e1 name newV activeMQ
  else (e1, [])

/-- One qualification re-check as triggered by a size-pool or window-resize
dispatch: the callback stores the fresh size measurement and runs
_checkAndLoad under the current breakpoint signal. -/
def recheck (e : Elem) (inp : Option Int × JStr) : Elem :=
  (checkAndLoad { e with currentSize := inp.1 } inp.2).1

/-- The boolean qualification outcome of _updateQualifies. -/
def qOf (e : Elem) (activeMQ : JStr) : Bool := (updateQualifies e activeMQ).2.1

/-- The warnings emitted by _updateQualifies. -/
def wOf (e : Elem) (activeMQ : JStr) : List Warn := (updateQualifies e activeMQ).2.2

/-- Entry of the shared ResizeObserver registry: one underlying observer
(identified by its creation index) plus the subscriber callback set
(callbacks identified by numbers, insertion order preserved). -/
structure SEntry where
  obsId : Nat
  callbacks : List Nat
deriving DecidableEq

/-- The shared size-observer pool (the sharedObservers WeakMap plus the
lifecycle of the underlying ResizeObservers): entries keyed by the identity
of the observed target node, a counter for fresh observer identities, the
log of disconnected observers, and the observe calls issued. -/
structure SPool where
  entries : List (Nat × SEntry)
  nextObs : Nat
  disconnected : List Nat
  observes : List (Nat × Nat)
deriving DecidableEq

/-- The empty size pool. -/
def emptySPool : SPool := ⟨[], 0, [], []⟩

/-- _getSharedObserver (src/lazy-img.js lines 228-239): create the entry
lazily on first use, constructing a ResizeObserver bound to the target. -/
def getSharedObserver (p : SPool) (target : Nat) : SPool :=
  match getKV p.entries target with
  | some _ => p
  | none =>
    { entries := p.entries ++ [(target, ⟨p.nextObs, []⟩)]
      nextObs := p.nextObs + 1
      disconnected := p.disconnected
      observes := p.observes ++ [(p.nextObs, target)] }

/-- The subscribe path of _setupResizeWatcher for container mode:
shared = _getSharedObserver(target); shared.callbacks.add(callback). -/
def subscribeSize (p : SPool) (target cb : Nat) : SPool :=
  let p1 := getSharedObserver p target
  { p1 with
    entries := modKV p1.entries target
      (fun en => { en with callbacks := addUnique en.callbacks cb }) }

/-- _removeSharedObserver (src/lazy-img.js lines 246-256): drop the callback
and, exactly when the set becomes empty, disconnect the observer and delete
the entry. -/
def removeSharedObserver (p : SPool) (target cb : Nat) : SPool :=
  match getKV p.entries target with
  | none => p
  | some en =>
    let cbs := en.callbacks.filter (fun c => c ≠ cb)
    if cbs.isEmpty then
      { p with
        entries := remKV p.entries target
        disconnected := p.disconnected ++ [en.obsId] }
    else { p with entries := setKV p.entries target { en with callbacks := cbs } }

/-- The fan-out of one underlying ResizeObserver dispatch for a target: the
current snapshot of the entry's callback set, in insertion order. -/
def dispatchSize (p : SPool) (target : Nat) : List Nat :=
  ((getKV p.entries target).map SEntry.callbacks).getD []

/-- Entry of the shared IntersectionObserver registry: one underlying
observer per configuration, its callback set and its observed targets. -/
structure IEntry where
  obsId : Nat
  callbacks : List Nat
  targets : List Nat
deriving DecidableEq

/-- The shared intersection pool (sharedIntersectionObservers): entries
keyed by the (rootMargin, threshold) configuration - the code serialises the
pair into the string rootMargin|threshold, which is injective on the values
parseViewRange produces, so the pair itself is a faithful key. -/
structure IPool where
  entries : List ((JStr × Frac) × IEntry)
  nextObs : Nat
  disconnected : List Nat
deriving DecidableEq

/-- The empty intersection pool. -/
def emptyIPool : IPool := ⟨[], 0, []⟩

/-- getSharedIntersectionObserver (src/lazy-img.js lines 127-147): create
the configured observer lazily per key. -/
def getSharedIObs (p : IPool) (k : JStr × Frac) : IPool :=
  match getKV p.entries k with
  | some _ => p
  | none =>
    { entries := p.entries ++ [(k, ⟨p.nextObs, [], []⟩)]
      nextObs := p.nextObs + 1
      disconnected := p.disconnected }

/-- The view-mode subscribe path of _setupResizeWatcher:
shared.callbacks.add(callback); shared.observer.observe(this). -/
def subscribeView (p : IPool) (k : JStr × Frac) (target cb : Nat) : IPool :=
  let p1 := getSharedIObs p k
  { p1 with
    entries := modKV p1.entries k
      (fun en =>
        { en with
          callbacks := addUnique en.callbacks cb
          targets := addUnique en.targets target }) }

/-- removeSharedIntersectionObserver (src/lazy-img.js lines 156-175): drop
the callback, unobserve the target, and tear the entry down when the
callback set becomes empty. -/
def removeSharedIObs (p : IPool) (k : JStr × Frac) (target cb : Nat) : IPool :=
  match getKV p.entries k with
  | none => p
  | some en =>
    let en1 :=
      { en with
        callbacks := en.callbacks.filter (fun c => c ≠ cb)
        targets := en.targets.filter (fun t => t ≠ target) }
    if en1.callbacks.isEmpty then
      { p with
        entries := remKV p.entries k
        disconnected := p.disconnected ++ [en.obsId] }
    else { p with entries := setKV p.entries k en1 }

/-- The callbacks the underlying observer of a key fans out to when an
intersecting record arrives; the observer callback guards on
entry.isIntersecting, so nothing is dispatched for non-intersecting
records. -/
def intersectDispatch (p : IPool) (k : JStr × Frac) : List Nat :=
  ((getKV p.entries k).map IEntry.callbacks).getD []

/-- Combined state of one view-mode instance and the intersection pool:
the element, the pool, and the instance's _intersectionCallback and
_intersectionConfig fields. -/
structure VState where
  elem : Elem
  pool : IPool
  icb : Option Nat
  icfg : Option (JStr × Frac)
deriving DecidableEq

/-- The view branch of _setupResizeWatcher (src/lazy-img.js lines 379-405):
parse view-range-start (defaulting to entry 0 percent), store the config,
create the instance callback (identified by cbId) and register it with the
shared observer; no initial _checkAndLoad runs in view mode. -/
def viewKey (e : Elem) : JStr × Frac :=
  let vrs :=
    match getAttr e "view-range-start" with
    | some v => if v.isEmpty then "entry 0%".toList else v
    | none => "entry 0%".toList
  let vr := (parseViewRange vrs).1
  (vr.rootMargin, vr.threshold)

def setupViewWatcher (e : Elem) (pool : IPool) (cbId target : Nat) : VState :=
  { elem := e
    pool := subscribeView pool (viewKey e) target cbId
    icb := some cbId
    icfg := some (viewKey e) }

/-- One dispatch of the underlying intersection observer for the instance's
key with the given isIntersecting flag.  When the record intersects, every
callback in the entry fans out; the instance's callback (when it is among
them) runs _loadImage, removes itself from the shared pool and clears its
fields.  Non-intersecting records dispatch nothing. -/
def viewDispatchStep (st : VState) (target : Nat) (intersecting : Bool) :
    VState :=
  match st.icfg, st.icb with
  | some k, some cb =>
    if intersecting ∧ cb ∈ intersectDispatch st.pool k then
      { elem := loadImage st.elem
        pool := removeSharedIObs st.pool k target cb
        icb := none
        icfg := none }
    else st
  | _, _ => st

/-- Events consumed by the throttle gate: a resize trigger or the teardown
of _cleanupResizeWatcher, each carrying its occurrence time in
milliseconds. -/
inductive TEvent where
  | trigger (t : Nat)
  | cleanup (t : Nat)
deriving DecidableEq

/-- The occurrence time of a throttle event. -/
def timeOf : TEvent → Nat
  | .trigger t => t
  | .cleanup t => t

/-- Throttle state of one instance: the deadline of the pending timer
(_throttleTimeout), if any, plus the times at which the debounced action
(the qualification check) has executed. -/
structure TState where
  pending : Option Nat
  execs : List Nat
deriving DecidableEq

/-- The initial throttle state: no pending timer, no executions. -/
def tInit : TState := ⟨none, []⟩

/-- Fire the pending timer if its deadline has passed by time t: the event
loop runs a due setTimeout callback (which performs the action and clears
_throttleTimeout) before processing an event at a later time. -/
def flushBefore (st : TState) (t : Nat) : TState :=
  match st.pending with
  | some d => if d ≤ t then ⟨none, st.execs ++ [d]⟩ else st
  | none => st

/-- _throttledResize (src/lazy-img.js lines 479-487) and the cleanup path of
_cleanupResizeWatcher: a trigger clears any pending timeout and schedules
the action 150ms later; cleanup clears the pending timeout. -/
def stepT (st : TState) (ev : TEvent) : TState :=
  match ev with
  | .trigger t =>
    let st1 := flushBefore st t
    ⟨some (t + 150), st1.execs⟩
  | .cleanup t =>
    let st1 := flushBefore st t
    ⟨none, st1.execs⟩

/-- Process a sequence of throttle events in order. -/
def runT (st : TState) (evs : List TEvent) : TState := evs.foldl stepT st

/-- All executions of the debounced action over the whole trace, the still
pending timer (which will fire unless torn down) included. -/
def allExecs (st : TState) (evs : List TEvent) : List Nat :=
  (runT st evs).execs ++ (runT st evs).pending.toList

/-- Trigger times spaced less than the 150ms delay apart (and
non-decreasing), as a decidable predicate. -/
def gapsLtB : Nat → List Nat → Bool
  | _, [] => true
  | t, b :: r => (decide (t ≤ b) && decide (b < t + 150)) && gapsLtB b r

/-- Trigger times spaced at least the 150ms delay apart. -/
def gapsGeB : Nat → List Nat → Bool
  | _, [] => true
  | t, b :: r => decide (t + 150 ≤ b) && gapsGeB b r

/-- The last element of a list, with a default. -/
def lastD (l : List Nat) (d : Nat) : Nat :=
  match l with
  | [] => d
  | x :: r => lastD r x

/-- The query type resulting from a mutation of the query attribute to a
given string value: newValue or the container default when falsy. -/
def queryAfter (v : JStr) : JStr :=
  if v.isEmpty then "container".toList else v

/-- Whether the qualifies attribute is currently present on the host. -/
def hasQualifiesAttr (e : Elem) : Bool := (getAttr e "qualifies").isSome

/-- A freshly constructed, unconfigured instance (constructor state). -/
def elem0 : Elem :=
  { attrs := []
    loaded := false
    queryType := "container".toList
    namedBreakpoints := none
    minInlineSize := none
    parsedBreakpoints := none
    currentSize := none
    styleInjected := false
    img := none
    events := [] }

/-- A view-mode instance that has loaded through its intersection callback
while carrying an (inert, in view mode) min-inline-size of 800 pixels. -/
def viewLoadedElem : Elem :=
  { elem0 with
    attrs :=
      [("src", "a.jpg".toList), ("min-inline-size", "800".toList),
       ("query", "view".toList), ("loaded", ([] : JStr))]
    loaded := true
    queryType := "view".toList
    minInlineSize := some "800".toList
    styleInjected := true
    img := some [("src", "a.jpg".toList), ("alt", ([] : JStr))]
    events := ["a.jpg".toList] }

/-- A container-mode instance with a 300 pixel threshold that has already
loaded (it qualified at size 400). -/
def loadedThresholdElem : Elem :=
  { elem0 with
    attrs :=
      [("src", "t.jpg".toList), ("min-inline-size", "300".toList),
       ("loaded", ([] : JStr)), ("qualifies", ([] : JStr))]
    loaded := true
    minInlineSize := some "300".toList
    currentSize := some 400
    styleInjected := true
    img := some [("src", "t.jpg".toList), ("alt", ([] : JStr))]
    events := ["t.jpg".toList] }

/-- A not-yet-loaded container-mode instance with min-inline-size 500
measured at exactly 500 pixels. -/
def thresholdElemAt500 : Elem :=
  { elem0 with
    attrs := [("src", "t.jpg".toList), ("min-inline-size", "500".toList)]
    minInlineSize := some "500".toList
    currentSize := some 500 }

/-- The same instance measured at 499 pixels. -/
def thresholdElemAt499 : Elem :=
  { thresholdElemAt500 with currentSize := some 499 }

/-- A not-yet-loaded view-mode instance with a source and the default
view-range-start. -/
def viewFreshElem : Elem :=
  { elem0 with
    attrs := [("src", "v.jpg".toList), ("query", "view".toList)]
    queryType := "view".toList }

theorem getKV_setKV_self {κ α : Type} [DecidableEq κ] (l : List (κ × α))
    (k : κ) (v : α) : getKV (setKV l k v) k = some v := by
  induction l with
  | nil => simp [setKV, getKV]
  | cons p r ih =>
    obtain ⟨k0, v0⟩ := p
    by_cases h : k = k0
    · subst h
      simp [setKV, getKV]
    · simp [setKV, getKV, h, ih]

theorem getKV_setKV_ne {κ α : Type} [DecidableEq κ] (l : List (κ × α))
    (k q : κ) (v : α) (h : q ≠ k) : getKV (setKV l k v) q = getKV l q := by
  induction l with
  | nil => simp [setKV, getKV, h]
  | cons p r ih =>
    obtain ⟨k0, v0⟩ := p
    by_cases h0 : k = k0
    · subst h0
      simp [setKV, getKV, h]
    · simp only [setKV, if_neg h0]
      by_cases h1 : q = k0
      · simp [getKV, h1]
      · simp [getKV, h1, ih]

theorem getKV_remKV_self {κ α : Type} [DecidableEq κ] (l : List (κ × α))
    (k : κ) : getKV (remKV l k) k = none := by
  induction l with
  | nil => rfl
  | cons p r ih =>
    obtain ⟨k0, v0⟩ := p
    by_cases h : k0 = k
    · simpa [remKV, h] using ih
    · simp only [remKV, if_neg h, getKV, if_neg (fun hq : k = k0 => h hq.symm)]
      exact ih

theorem getKV_remKV_ne {κ α : Type} [DecidableEq κ] (l : List (κ × α))
    (k q : κ) (h : q ≠ k) : getKV (remKV l k) q = getKV l q := by
  induction l with
  | nil => rfl
  | cons p r ih =>
    obtain ⟨k0, v0⟩ := p
    by_cases h0 : k0 = k
    · subst h0
      simp [remKV, getKV, fun hq : q = k0 => h hq, ih]
    · by_cases h1 : q = k0
      · simp [remKV, h0, getKV, h1]
      · simp [remKV, h0, getKV, h1, ih]

theorem getKV_modKV {κ α : Type} [DecidableEq κ] (l : List (κ × α)) (k : κ)
    (f : α → α) : getKV (modKV l k f) k = (getKV l k).map f := by
  induction l with
  | nil => rfl
  | cons p r ih =>
    obtain ⟨k0, v0⟩ := p
    by_cases h : k0 = k
    · subst h
      simp [modKV, getKV, ih]
    · simp only [modKV, if_neg h, getKV,
        if_neg (fun hq : k = k0 => h hq.symm)]
      exact ih

theorem getKV_append_of_none {κ α : Type} [DecidableEq κ] (l : List (κ × α))
    (k : κ) (v : α) (h : getKV l k = none) :
    getKV (l ++ [(k, v)]) k = some v := by
  induction l with
  | nil => simp [getKV]
  | cons p r ih =>
    obtain ⟨k0, v0⟩ := p
    by_cases h0 : k = k0
    · simp [getKV, h0] at h
    · simp only [getKV, if_neg h0] at h
      simpa [getKV, h0] using ih h

theorem render_fields (e : Elem) :
    (render e).loaded = e.loaded ∧ (render e).events = e.events ∧
    (render e).attrs = e.attrs ∧ (render e).queryType = e.queryType ∧
    (render e).currentSize = e.currentSize ∧
    (render e).parsedBreakpoints = e.parsedBreakpoints ∧
    (render e).minInlineSize = e.minInlineSize ∧
    (render e).namedBreakpoints = e.namedBreakpoints := by
  unfold render
  cases getAttr e "src" with
  | none => simp
  | some s =>
    simp only []
    split
    · simp
    · split
      · split <;> simp
      · simp

theorem updateQualifies_fields (e : Elem) (mq : JStr) :
    ((updateQualifies e mq).1).loaded = e.loaded ∧
    ((updateQualifies e mq).1).events = e.events ∧
    ((updateQualifies e mq).1).img = e.img ∧
    ((updateQualifies e mq).1).queryType = e.queryType ∧
    ((updateQualifies e mq).1).currentSize = e.currentSize ∧
    ((updateQualifies e mq).1).parsedBreakpoints = e.parsedBreakpoints ∧
    ((updateQualifies e mq).1).minInlineSize = e.minInlineSize ∧
    ((updateQualifies e mq).1).namedBreakpoints = e.namedBreakpoints := by
  unfold updateQualifies
  rcases hr : resolveQualifies e mq with ⟨q, w⟩
  by_cases hv : e.queryType = "view".toList
  · simp [hv]
  · rw [if_neg hv]
    rcases q with _ | _ <;> simp

theorem updateQualifies_getAttr (e : Elem) (mq : JStr) (a : String)
    (h : a ≠ "qualifies") :
    getAttr ((updateQualifies e mq).1) a = getAttr e a := by
  unfold updateQualifies
  rcases hr : resolveQualifies e mq with ⟨q, w⟩
  by_cases hv : e.queryType = "view".toList
  · simp [hv]
  · rw [if_neg hv]
    rcases q with _ | _
    · simp [getAttr, getKV_remKV_ne _ _ _ h]
    · simp [getAttr, getKV_setKV_ne _ _ _ _ h]

theorem updateQualifies_q (e : Elem) (mq : JStr)
    (h : e.queryType ≠ "view".toList) :
    (updateQualifies e mq).2.1 = (resolveQualifies e mq).1 ∧
    (updateQualifies e mq).2.2 = (resolveQualifies e mq).2 := by
  unfold updateQualifies
  rcases hr : resolveQualifies e mq with ⟨q, w⟩
  rw [if_neg h]
  rcases q with _ | _ <;> simp [hr]

theorem loadImage_of_src (e : Elem) (s : JStr) (h : getAttr e "src" = some s)
    (hs : s.isEmpty = false) :
    (loadImage e).loaded = true ∧ (loadImage e).events = e.events ++ [s] := by
  unfold loadImage
  rw [h]
  dsimp only
  rw [if_neg (by simp [hs])]
  constructor
  · exact (render_fields _).1
  · rw [(render_fields _).2.1]

theorem loadImage_no_src (e : Elem) (h : getAttr e "src" = none) :
    loadImage e = e := by
  unfold loadImage
  rw [h]

theorem loadImage_not_truthy (e : Elem)
    (h : truthyS (getAttr e "src") = false) : loadImage e = e := by
  unfold loadImage
  cases hs : getAttr e "src" with
  | none => rfl
  | some s =>
    rw [hs] at h
    simp [truthyS] at h
    subst h
    rfl

theorem checkAndLoad_of_loaded (e : Elem) (mq : JStr) (h : e.loaded = true) :
    (checkAndLoad e mq).1 = (updateQualifies e mq).1 ∧
    ((checkAndLoad e mq).1).loaded = true := by
  have hl := (updateQualifies_fields e mq).1
  unfold checkAndLoad
  constructor
  · simp only [hl, h]
    split <;> simp_all
  · simp only [hl, h]
    split <;> simp_all

theorem checkAndLoad_loaded_of_notloaded (e : Elem) (mq : JStr)
    (h : e.loaded = false) :
    ((checkAndLoad e mq).1).loaded =
      ((updateQualifies e mq).2.1 && truthyS (getAttr e "src")) := by
  have hl := (updateQualifies_fields e mq).1
  have hsrc := updateQualifies_getAttr e mq "src" (by decide)
  unfold checkAndLoad
  simp only [hl, h]
  rcases hq : (updateQualifies e mq).2.1 with _ | _
  · simp [hq, hl, h]
  · simp only [hq, Bool.true_and, Bool.not_false, Bool.and_true]
    rcases ht : truthyS (getAttr e "src") with _ | _
    · rw [loadImage_not_truthy _ (by rw [hsrc]; exact ht)]
      simp [hl, h]
    · rcases hs : getAttr e "src" with _ | s
      · rw [hs] at ht
        simp [truthyS] at ht
      · have hse : s.isEmpty = false := by
          rw [hs] at ht
          simpa [truthyS] using ht
        simp [(loadImage_of_src _ s (hsrc.trans hs) hse).1]

theorem recheck_keeps_loaded (e : Elem) (inp : Option Int × JStr)
    (h : e.loaded = true) : (recheck e inp).loaded = true := by
  unfold recheck
  exact (checkAndLoad_of_loaded { e with currentSize := inp.1 } inp.2 h).2

theorem foldl_recheck_keeps_loaded (inps : List (Option Int × JStr)) :
    ∀ e : Elem, e.loaded = true → (inps.foldl recheck e).loaded = true := by
  induction inps with
  | nil => intro e h; exact h
  | cons i r ih =>
    intro e h
    exact ih (recheck e i) (recheck_keeps_loaded e i h)

/-- C2: once an instance has loaded, no sequence of qualification re-checks
(each delivering a fresh size measurement and breakpoint signal through
_checkAndLoad) ever resets the loaded flag; meanwhile the qualifies
attribute still toggles with the environment, as the loaded 300px-threshold
instance checked at 400px and then at 200px shows. -/
theorem c2_loaded_monotonic :
    (∀ (e : Elem) (inps : List (Option Int × JStr)), e.loaded = true →
      (inps.foldl recheck e).loaded = true) ∧
    (hasQualifiesAttr (recheck loadedThresholdElem (some 400, [])) = true ∧
      hasQualifiesAttr
        (recheck (recheck loadedThresholdElem (some 400, [])) (some 200, [])) =
        false ∧
      (recheck (recheck loadedThresholdElem (some 400, [])) (some 200, [])).loaded =
        true) := by
  refine ⟨fun e inps h => foldl_recheck_keeps_loaded inps e h, ?_, ?_, ?_⟩ <;> decide

/-- C2 witness: the universal part applied to a concrete loaded instance
and a concrete re-check sequence. -/
theorem c2_loaded_monotonic_witness :
    loadedThresholdElem.loaded = true ∧
      (([(some 200, []), (some 400, [])] : List (Option Int × JStr)).foldl
        recheck loadedThresholdElem).loaded = true :=
  ⟨by decide,
    c2_loaded_monotonic.1 loadedThresholdElem [(some 200, []), (some 400, [])]
      (by decide)⟩

/-- C10: in view mode _updateQualifies unconditionally returns true and
leaves the element (in particular the qualifies attribute) untouched, so
any _checkAndLoad on a not-yet-loaded view-mode instance whose src is
present and non-empty (truthy, passing _loadImage's `if (!src)` guard)
loads the image immediately, with no intersection event involved. -/
theorem c10_view_updateQualifies_true :
    (∀ (e : Elem) (mq : JStr), e.queryType = "view".toList →
      updateQualifies e mq = (e, true, [])) ∧
    (∀ (e : Elem) (mq : JStr) (s : JStr), e.queryType = "view".toList →
      e.loaded = false → getAttr e "src" = some s → s.isEmpty = false →
      checkAndLoad e mq = (loadImage e, []) ∧
      (loadImage e).loaded = true ∧ (loadImage e).events = e.events ++ [s]) := by
  constructor
  · intro e mq h
    unfold updateQualifies
    rw [if_pos h]
  · intro e mq s hview hnl hsrc hse
    have h1 : updateQualifies e mq = (e, true, []) := by
      unfold updateQualifies
      rw [if_pos hview]
    refine ⟨?_, (loadImage_of_src e s hsrc hse).1,
      (loadImage_of_src e s hsrc hse).2⟩
    unfold checkAndLoad
    rw [h1]
    simp [hnl]

/-- C10 witness: a fresh view-mode instance with a non-empty source loads
at once when _checkAndLoad runs. -/
theorem c10_view_updateQualifies_true_witness :
    viewFreshElem.queryType = "view".toList ∧ viewFreshElem.loaded = false ∧
      getAttr viewFreshElem "src" = some "v.jpg".toList ∧
      ("v.jpg".toList).isEmpty = false ∧
      (checkAndLoad viewFreshElem [] = (loadImage viewFreshElem, []) ∧
        (loadImage viewFreshElem).loaded = true ∧
        (loadImage viewFreshElem).events = viewFreshElem.events ++ ["v.jpg".toList]) :=
  ⟨by decide, by decide, by decide, by decide,
    c10_view_updateQualifies_true.2 viewFreshElem [] "v.jpg".toList
      (by decide) (by decide) (by decide) (by decide)⟩

/-- C5: with named breakpoints configured, only the breakpoint path of the
resolver is evaluated - the outcome is invariant under any size threshold
and any measured size - and the instance qualifies exactly when the trimmed
active breakpoint signal is non-empty and a member of the trimmed
breakpoint list; an empty signal yields a warning and disqualification. -/
theorem c5_breakpoint_precedence :
    ∀ (e : Elem) (nb mq : JStr),
      e.queryType ≠ "view".toList →
      e.parsedBreakpoints = some ((splitComma nb).map jsTrim) →
      ((∀ (ms : Option JStr) (cs : Option Int),
          qOf { e with minInlineSize := ms, currentSize := cs } mq = qOf e mq) ∧
        (qOf e mq = true ↔
          ((jsTrim mq).isEmpty = false ∧ jsTrim mq ∈ (splitComma nb).map jsTrim)) ∧
        (wOf e mq =
          if (jsTrim mq).isEmpty then [Warn.missingBreakpointSignal] else [])) := by
  intro e nb mq hview hpb
  refine ⟨?_, ?_, ?_⟩
  · intro ms cs
    unfold qOf
    rw [(updateQualifies_q { e with minInlineSize := ms, currentSize := cs } mq
          hview).1,
        (updateQualifies_q e mq hview).1]
    simp only [resolveQualifies, hpb]
  · unfold qOf
    rw [(updateQualifies_q e mq hview).1]
    simp only [resolveQualifies, hpb]
    rcases hmt : (jsTrim mq).isEmpty with _ | _
    · simp [hmt]
    · simp [hmt]
  · unfold wOf
    rw [(updateQualifies_q e mq hview).2]
    simp only [resolveQualifies, hpb]
    rcases hmt : (jsTrim mq).isEmpty with _ | _
    · simp [hmt]
    · simp [hmt]

/-- C5 witness: a container-mode instance configured with the breakpoint
list "small, medium" (and, for the independence part, any threshold and
size) against the active signal "medium". -/
theorem c5_breakpoint_precedence_witness :
    ({ elem0 with
        parsedBreakpoints :=
          some ((splitComma "small, medium".toList).map jsTrim) } : Elem).queryType ≠
        "view".toList ∧
      (qOf { elem0 with
          parsedBreakpoints :=
            some ((splitComma "small, medium".toList).map jsTrim) }
          "medium".toList = true ↔
        (((jsTrim "medium".toList).isEmpty = false) ∧
          jsTrim "medium".toList ∈ (splitComma "small, medium".toList).map jsTrim)) :=
  ⟨by decide,
    (c5_breakpoint_precedence
      { elem0 with
        parsedBreakpoints :=
          some ((splitComma "small, medium".toList).map jsTrim) }
      "small, medium".toList "medium".toList (by decide) rfl).2.1⟩

/-- C6: with no named breakpoints and a non-empty size threshold string, an
unparsable threshold warns and disqualifies, while a parsed threshold m
qualifies exactly when the measured size (0 when none was measured yet) is
at least m - inclusively, as the concrete instances measured at exactly 500
and at 499 against min-inline-size 500 show; with neither condition
configured the instance always qualifies, without warnings. -/
theorem c6_threshold_inclusive :
    (∀ (e : Elem) (s mq : JStr),
      e.queryType ≠ "view".toList → e.parsedBreakpoints = none →
      e.minInlineSize = some s → s.isEmpty = false →
      ((jsParseInt s = none →
          qOf e mq = false ∧ wOf e mq = [Warn.invalidSizeThreshold]) ∧
        (∀ m : Int, jsParseInt s = some m →
          ((qOf e mq = true ↔ m ≤ e.currentSize.getD 0) ∧ wOf e mq = [])))) ∧
    (∀ (e : Elem) (mq : JStr),
      e.queryType ≠ "view".toList → e.parsedBreakpoints = none →
      truthyS e.minInlineSize = false →
      qOf e mq = true ∧ wOf e mq = []) ∧
    (qOf thresholdElemAt500 [] = true ∧ qOf thresholdElemAt499 [] = false) := by
  refine ⟨?_, ?_, by decide, by decide⟩
  · intro e s mq hview hpb hms hs
    have htr : truthyS e.minInlineSize = true := by
      rw [hms]
      simp [truthyS, hs]
    constructor
    · intro hpi
      constructor
      · unfold qOf
        rw [(updateQualifies_q e mq hview).1]
        simp [resolveQualifies, hpb, truthyS, hs, hms, hpi]
      · unfold wOf
        rw [(updateQualifies_q e mq hview).2]
        simp [resolveQualifies, hpb, truthyS, hs, hms, hpi]
    · intro m hpi
      constructor
      · unfold qOf
        rw [(updateQualifies_q e mq hview).1]
        simp [resolveQualifies, hpb, truthyS, hs, hms, hpi, ge_iff_le]
      · unfold wOf
        rw [(updateQualifies_q e mq hview).2]
        simp [resolveQualifies, hpb, truthyS, hs, hms, hpi]
  · intro e mq hview hpb hms
    constructor
    · unfold qOf
      rw [(updateQualifies_q e mq hview).1]
      simp [resolveQualifies, hpb, hms]
    · unfold wOf
      rw [(updateQualifies_q e mq hview).2]
      simp [resolveQualifies, hpb, hms]

/-- C6 witness: the threshold branch applied to the concrete instance with
min-inline-size 500 measured at exactly 500 pixels. -/
theorem c6_threshold_inclusive_witness :
    jsParseInt "500".toList = some 500 ∧
      ((qOf thresholdElemAt500 [] = true ↔
          (500 : Int) ≤ thresholdElemAt500.currentSize.getD 0) ∧
        wOf thresholdElemAt500 [] = []) :=
  ⟨by decide,
    ((c6_threshold_inclusive.1 thresholdElemAt500 "500".toList []
        (by decide) rfl rfl (by decide)).2 500 (by decide))⟩

/-- C1: in the shared size pool, the first subscriber for a target lazily
creates the entry - a fresh underlying observer bound (observing) to that
target with the callback as sole subscriber - while later subscribers reuse
it; unsubscribing removes the callback and tears the entry down (observer
disconnected, entry deleted) exactly when the callback set becomes empty;
concretely, with callbacks 1 and 2 sharing target 7, removing 1 keeps the
observer alive and dispatching to 2, and removing 2 then disconnects
observer 0 and deletes the entry. -/
theorem c1_size_pool_refcount :
    (∀ (p : SPool) (t cb : Nat), getKV p.entries t = none →
      getKV (subscribeSize p t cb).entries t = some ⟨p.nextObs, [cb]⟩ ∧
      (p.nextObs, t) ∈ (subscribeSize p t cb).observes ∧
      (subscribeSize p t cb).disconnected = p.disconnected) ∧
    (∀ (p : SPool) (t cb : Nat) (en : SEntry), getKV p.entries t = some en →
      getKV (subscribeSize p t cb).entries t =
        some { en with callbacks := addUnique en.callbacks cb } ∧
      (subscribeSize p t cb).nextObs = p.nextObs ∧
      (subscribeSize p t cb).observes = p.observes ∧
      (subscribeSize p t cb).disconnected = p.disconnected) ∧
    (∀ (p : SPool) (t cb : Nat) (en : SEntry), getKV p.entries t = some en →
      ((en.callbacks.filter (fun c => c ≠ cb)).isEmpty = true →
        getKV (removeSharedObserver p t cb).entries t = none ∧
        (removeSharedObserver p t cb).disconnected =
          p.disconnected ++ [en.obsId]) ∧
      ((en.callbacks.filter (fun c => c ≠ cb)).isEmpty = false →
        getKV (removeSharedObserver p t cb).entries t =
          some { en with callbacks := en.callbacks.filter (fun c => c ≠ cb) } ∧
        (removeSharedObserver p t cb).disconnected = p.disconnected)) ∧
    (dispatchSize
        (removeSharedObserver (subscribeSize (subscribeSize emptySPool 7 1) 7 2)
          7 1) 7 = [2] ∧
      (removeSharedObserver (subscribeSize (subscribeSize emptySPool 7 1) 7 2)
        7 1).disconnected = [] ∧
      getKV
        (removeSharedObserver
          (removeSharedObserver (subscribeSize (subscribeSize emptySPool 7 1) 7 2)
            7 1) 7 2).entries 7 = none ∧
      (removeSharedObserver
        (removeSharedObserver (subscribeSize (subscribeSize emptySPool 7 1) 7 2)
          7 1) 7 2).disconnected = [0]) := by
  refine ⟨?_, ?_, ?_, by decide⟩
  · intro p t cb h
    unfold subscribeSize getSharedObserver
    rw [h]
    refine ⟨?_, ?_, rfl⟩
    · simp only [getKV_modKV, getKV_append_of_none p.entries t _ h, Option.map_some]
      simp [addUnique]
    · simp
  · intro p t cb en h
    unfold subscribeSize getSharedObserver
    rw [h]
    simp [getKV_modKV, h]
  · intro p t cb en h
    constructor
    · intro hfe
      unfold removeSharedObserver
      rw [h]
      dsimp only
      rw [if_pos hfe]
      exact ⟨getKV_remKV_self _ _, rfl⟩
    · intro hfe
      unfold removeSharedObserver
      rw [h]
      dsimp only
      rw [if_neg (by simpa using hfe)]
      exact ⟨getKV_setKV_self _ _ _, rfl⟩

/-- C1 witness: the lazy-creation part applied to the empty pool, target 7,
callback 1. -/
theorem c1_size_pool_refcount_witness :
    getKV emptySPool.entries 7 = none ∧
      (getKV (subscribeSize emptySPool 7 1).entries 7 =
          some ⟨emptySPool.nextObs, [1]⟩ ∧
        (emptySPool.nextObs, 7) ∈ (subscribeSize emptySPool 7 1).observes ∧
        (subscribeSize emptySPool 7 1).disconnected = emptySPool.disconnected) :=
  ⟨by decide, c1_size_pool_refcount.1 emptySPool 7 1 (by decide)⟩

theorem mem_addUnique (l : List Nat) (x : Nat) : x ∈ addUnique l x := by
  unfold addUnique
  split
  · assumption
  · simp

theorem mem_intersectDispatch_subscribeView (p : IPool) (k : JStr × Frac)
    (t cb : Nat) : cb ∈ intersectDispatch (subscribeView p k t cb) k := by
  unfold subscribeView getSharedIObs intersectDispatch
  cases h : getKV p.entries k with
  | none =>
    dsimp only
    simp only [getKV_modKV, getKV_append_of_none p.entries k _ h,
      Option.map_some]
    simpa using mem_addUnique [] cb
  | some en =>
    dsimp only
    simp only [getKV_modKV, h, Option.map_some]
    simpa using mem_addUnique en.callbacks cb

theorem not_mem_intersectDispatch_remove (p : IPool) (k : JStr × Frac)
    (t cb : Nat) : cb ∉ intersectDispatch (removeSharedIObs p k t cb) k := by
  unfold removeSharedIObs intersectDispatch
  cases h : getKV p.entries k with
  | none =>
    rw [h]
    simp [h]
  | some en =>
    dsimp only
    split
    · simp [getKV_remKV_self]
    · simp only [getKV_setKV_self, Option.map_some, Option.getD_some]
      simp

theorem viewDispatchStep_fire (el : Elem) (p : IPool) (k : JStr × Frac)
    (cb t : Nat) (hmem : cb ∈ intersectDispatch p k) :
    viewDispatchStep ⟨el, p, some cb, some k⟩ t true =
      ⟨loadImage el, removeSharedIObs p k t cb, none, none⟩ := by
  unfold viewDispatchStep
  exact if_pos ⟨rfl, hmem⟩

theorem viewDispatchStep_nonintersecting (st : VState) (t : Nat) :
    viewDispatchStep st t false = st := by
  obtain ⟨el, p, icb, icfg⟩ := st
  unfold viewDispatchStep
  cases icfg <;> cases icb <;> simp

/-- C8: setting up a view-mode watcher registers the instance callback in
the shared intersection pool for its parsed configuration key; for an
instance whose src is present and non-empty (truthy, passing _loadImage's
`if (!src)` guard), the first intersecting dispatch loads the image
(dispatching the loaded event) and immediately removes the callback from
the pool, so a second dispatch for the same key no longer reaches the
instance and leaves its state unchanged; non-intersecting records never
trigger any callback. -/
theorem c8_view_one_shot :
    ∀ (e : Elem) (pool : IPool) (cb t : Nat) (s : JStr),
      e.loaded = false → getAttr e "src" = some s → s.isEmpty = false →
      ((viewDispatchStep (setupViewWatcher e pool cb t) t true).elem.loaded =
          true ∧
        (viewDispatchStep (setupViewWatcher e pool cb t) t true).elem.events =
          e.events ++ [s]) ∧
      (∀ k, (setupViewWatcher e pool cb t).icfg = some k →
        cb ∉ intersectDispatch
            (viewDispatchStep (setupViewWatcher e pool cb t) t true).pool k) ∧
      (viewDispatchStep (viewDispatchStep (setupViewWatcher e pool cb t) t true)
          t true =
        viewDispatchStep (setupViewWatcher e pool cb t) t true) ∧
      (∀ st : VState, viewDispatchStep st t false = st) := by
  intro e pool cb t s hl hsrc hse
  have hstep : viewDispatchStep (setupViewWatcher e pool cb t) t true =
      ⟨loadImage e,
        removeSharedIObs (subscribeView pool (viewKey e) t cb) (viewKey e) t cb,
        none, none⟩ :=
    viewDispatchStep_fire e (subscribeView pool (viewKey e) t cb) (viewKey e)
      cb t (mem_intersectDispatch_subscribeView pool (viewKey e) t cb)
  refine ⟨⟨?_, ?_⟩, ?_, ?_, fun st => viewDispatchStep_nonintersecting st t⟩
  · rw [hstep]
    exact (loadImage_of_src e s hsrc hse).1
  · rw [hstep]
    exact (loadImage_of_src e s hsrc hse).2
  · intro k hk
    have hk2 : some (viewKey e) = some k := hk
    have hkk : k = viewKey e := (Option.some.inj hk2).symm
    rw [hstep, hkk]
    exact not_mem_intersectDispatch_remove _ _ t cb
  · rw [hstep]
    rfl

/-- C8 witness: a fresh view-mode instance with a non-empty source
registered against the empty pool, its callback identified as 1 and itself
as target 9. -/
theorem c8_view_one_shot_witness :
    viewFreshElem.loaded = false ∧
      getAttr viewFreshElem "src" = some "v.jpg".toList ∧
      ("v.jpg".toList).isEmpty = false ∧
      ((viewDispatchStep (setupViewWatcher viewFreshElem emptyIPool 1 9) 9
            true).elem.loaded = true ∧
        (viewDispatchStep (setupViewWatcher viewFreshElem emptyIPool 1 9) 9
            true).elem.events = viewFreshElem.events ++ ["v.jpg".toList]) :=
  ⟨by decide, by decide, by decide,
    (c8_view_one_shot viewFreshElem emptyIPool 1 9 "v.jpg".toList (by decide)
      (by decide) (by decide)).1⟩

theorem getKV_foldl_setKV_not_mem {κ α : Type} [DecidableEq κ]
    (kvs : List (κ × α)) : ∀ (l : List (κ × α)) (k : κ),
    (∀ p ∈ kvs, p.1 ≠ k) →
    getKV (kvs.foldl (fun acc p => setKV acc p.1 p.2) l) k = getKV l k := by
  induction kvs with
  | nil => intro l k _; rfl
  | cons p r ih =>
    intro l k h
    simp only [List.foldl_cons]
    rw [ih (setKV l p.1 p.2) k (fun q hq => h q (List.mem_cons_of_mem p hq))]
    exact getKV_setKV_ne l p.1 k p.2 (fun hq => h p (List.mem_cons_self p r) hq.symm)

theorem getKV_foldl_setKV_mem {κ α : Type} [DecidableEq κ]
    (kvs : List (κ × α)) : ∀ (l : List (κ × α)) (k : κ) (v : α),
    (k, v) ∈ kvs → (kvs.map Prod.fst).Nodup →
    getKV (kvs.foldl (fun acc p => setKV acc p.1 p.2) l) k = some v := by
  induction kvs with
  | nil => intro l k v h _; cases h
  | cons p r ih =>
    intro l k v h hnd
    simp only [List.foldl_cons]
    rcases List.mem_cons.1 h with h1 | h1
    · subst h1
      rw [getKV_foldl_setKV_not_mem r (setKV l k v) k ?_]
      · exact getKV_setKV_self l k v
      · intro q hq hqk
        have hks : k ∈ r.map Prod.fst := by
          rw [← hqk]
          exact List.mem_map_of_mem Prod.fst hq
        exact (List.nodup_cons.1 (by simpa using hnd)).1 hks
    · refine ih (setKV l p.1 p.2) k v h1 ?_
      exact (List.nodup_cons.1 (by simpa using hnd)).2

theorem imgAttrEntry_key (e : Elem) (a : String) (p : String × JStr)
    (h : imgAttrEntry e a = some p) : p.1 = a := by
  unfold imgAttrEntry at h
  cases hg : getAttr e a with
  | some v =>
    rw [hg] at h
    cases h
    rfl
  | none =>
    rw [hg] at h
    by_cases ha : a = "alt"
    · rw [if_pos ha] at h
      cases h
      exact ha.symm
    · rw [if_neg ha] at h
      cases h

theorem imgAttrs_keys_sublist (e : Elem) : ∀ l : List String,
    List.Sublist ((l.filterMap (imgAttrEntry e)).map Prod.fst) l := by
  intro l
  induction l with
  | nil => simp
  | cons a r ih =>
    cases h : imgAttrEntry e a with
    | none => simpa [List.filterMap_cons, h] using ih.cons a
    | some p =>
      rw [List.filterMap_cons, h]
      simpa [imgAttrEntry_key e a p h] using ih.cons₂ a

theorem imgAttrs_keys_nodup (e : Elem) :
    ((getImgAttributes e).map Prod.fst).Nodup :=
  (imgAttrs_keys_sublist e IMG_ATTRIBUTES).nodup (by decide)

theorem mem_getImgAttributes (e : Elem) (a : String) (v : JStr)
    (ha : a ∈ IMG_ATTRIBUTES) (hv : getAttr e a = some v) :
    (a, escapeHtml v) ∈ getImgAttributes e :=
  List.mem_filterMap.2 ⟨a, ha, by simp [imgAttrEntry, hv]⟩

theorem render_img_attr (e : Elem) (a : String) (v s : JStr)
    (l : List (String × JStr)) (hl : e.loaded = true)
    (hsrc : getAttr e "src" = some s) (hse : s.isEmpty = false)
    (himg : e.img = some l)
    (ha : a ∈ IMG_ATTRIBUTES) (hv : getAttr e a = some v) :
    ∃ l2, (render e).img = some l2 ∧ getKV l2 a = some (escapeHtml v) := by
  unfold render
  rw [hsrc]
  dsimp only
  rw [if_neg (by simp [hse])]
  rw [if_pos (by simp [hl])]
  rw [show ({ e with styleInjected := true } : Elem).img = some l from himg]
  refine ⟨_, rfl, ?_⟩
  exact getKV_foldl_setKV_mem (getImgAttributes { e with styleInjected := true })
    l a (escapeHtml v)
    (mem_getImgAttributes { e with styleInjected := true } a v ha hv)
    (imgAttrs_keys_nodup _)

/-- C7: once loaded, mutating src, srcset or sizes is silently ignored -
the host attribute changes but the element state (rendered img included) is
untouched and nothing is re-rendered or warned - while mutating another
pass-through img attribute such as loading still re-renders and, as long as
the src is truthy (non-empty, so render's `if (!src)` guard passes),
updates that attribute on the rendered img. -/
theorem c7_immutable_after_load :
    (∀ (e : Elem) (name : String) (v : JStr) (mq : JStr),
      e.loaded = true → name ∈ SOURCE_ATTRIBUTES →
      mutateAttribute e name (some v) mq =
        ({ e with attrs := setKV e.attrs name v }, [])) ∧
    (∀ (e : Elem) (name : String) (v mq : JStr) (l : List (String × JStr))
        (s : JStr),
      e.loaded = true → name ∈ IMG_ATTRIBUTES → name ∉ SOURCE_ATTRIBUTES →
      getAttr e name ≠ some v → getAttr e "src" = some s → s.isEmpty = false →
      e.img = some l →
      ((mutateAttribute e name (some v) mq).2 = [] ∧
        (mutateAttribute e name (some v) mq).1.loaded = true ∧
        ∃ l2, (mutateAttribute e name (some v) mq).1.img = some l2 ∧
          getKV l2 name = some (escapeHtml v))) := by
  constructor
  · intro e name v mq hl hmem
    unfold mutateAttribute
    dsimp only
    by_cases hold : getAttr e name = some v
    · rw [if_neg (fun hc => hc.2 hold)]
    · rw [if_pos ⟨by
        unfold OBSERVED_ATTRIBUTES
        refine List.mem_append.2 (Or.inl ?_)
        fin_cases hmem <;> decide, hold⟩]
      fin_cases hmem <;>
        simp only [attributeChanged, applyConfigCache, hl, SOURCE_ATTRIBUTES,
          List.mem_cons, List.not_mem_nil, String.reduceEq, reduceIte,
          or_false, false_or, true_and, or_true, if_true, if_false, and_true,
          and_false, List.mem_singleton, or_self]
  · intro e name v mq l s hl hin hnotsrc hchg hsrc hse himg
    have hobs : name ∈ OBSERVED_ATTRIBUTES := by
      unfold OBSERVED_ATTRIBUTES
      exact List.mem_append.2 (Or.inl hin)
    unfold mutateAttribute
    dsimp only
    rw [if_pos ⟨hobs, hchg⟩]
    fin_cases hin <;>
      first
      | exact absurd (by decide) hnotsrc
      | (simp only [attributeChanged, applyConfigCache, hl, SOURCE_ATTRIBUTES,
           IMG_ATTRIBUTES, List.mem_cons, List.not_mem_nil, String.reduceEq,
           reduceIte, or_false, false_or, true_and, or_true, if_true,
           if_false, and_true, and_false, List.mem_singleton, or_self]
         refine ⟨(render_fields _).1, ?_⟩
         exact render_img_attr _ _ v s l rfl
           (by unfold getAttr
               dsimp only
               rw [getKV_setKV_ne _ _ _ _ (by decide)]
               exact hsrc)
           hse himg (by decide)
           (by unfold getAttr
               dsimp only
               rw [getKV_setKV_self]))

/-- C7 witness: mutating src on the loaded instance is ignored, leaving
only the host attribute updated. -/
theorem c7_immutable_after_load_witness :
    loadedThresholdElem.loaded = true ∧
      mutateAttribute loadedThresholdElem "src" (some "new.jpg".toList) [] =
        ({ loadedThresholdElem with
            attrs := setKV loadedThresholdElem.attrs "src" "new.jpg".toList },
          []) :=
  ⟨by decide,
    c7_immutable_after_load.1 loadedThresholdElem "src" "new.jpg".toList []
      (by decide) (by decide)⟩

theorem stepT_execs (st : TState) (ev : TEvent) :
    (stepT st ev).execs = (flushBefore st (timeOf ev)).execs := by
  cases ev <;> rfl

theorem allExecs_cons (st : TState) (ev : TEvent) (evs : List TEvent) :
    allExecs st (ev :: evs) = allExecs (stepT st ev) evs := by
  simp [allExecs, runT]

theorem allExecs_lt (rest : List Nat) : ∀ (t : Nat) (E : List Nat),
    gapsLtB t rest = true →
    allExecs ⟨some (t + 150), E⟩ (rest.map .trigger) =
      E ++ [lastD rest t + 150] := by
  induction rest with
  | nil =>
    intro t E _
    simp [allExecs, runT, lastD]
  | cons b r ih =>
    intro t E h
    simp only [gapsLtB, Bool.and_eq_true, decide_eq_true_eq] at h
    obtain ⟨⟨h1, h2⟩, h3⟩ := h
    rw [List.map_cons, allExecs_cons]
    have hstep : stepT ⟨some (t + 150), E⟩ (.trigger b) = ⟨some (b + 150), E⟩ := by
      unfold stepT flushBefore
      simp only []
      rw [if_neg (by omega)]
    rw [hstep, ih b E h3]
    rfl

theorem allExecs_ge (rest : List Nat) : ∀ (t : Nat) (E : List Nat),
    gapsGeB t rest = true →
    allExecs ⟨some (t + 150), E⟩ (rest.map .trigger) =
      E ++ (t :: rest).map (fun x => x + 150) := by
  induction rest with
  | nil =>
    intro t E _
    simp [allExecs, runT]
  | cons b r ih =>
    intro t E h
    simp only [gapsGeB, Bool.and_eq_true, decide_eq_true_eq] at h
    obtain ⟨h1, h2⟩ := h
    rw [List.map_cons, allExecs_cons]
    have hstep : stepT ⟨some (t + 150), E⟩ (.trigger b) =
        ⟨some (b + 150), E ++ [t + 150]⟩ := by
      unfold stepT flushBefore
      simp only []
      rw [if_pos h1]
    rw [hstep, ih b (E ++ [t + 150]) h2]
    simp

theorem flushBefore_execs_le (st : TState) (u B : Nat) (hu : u ≤ B)
    (hst : ∀ x ∈ st.execs, x ≤ B) :
    ∀ x ∈ (flushBefore st u).execs, x ≤ B := by
  unfold flushBefore
  cases hp : st.pending with
  | none => exact hst
  | some d =>
    dsimp only
    by_cases hd : d ≤ u
    · rw [if_pos hd]
      intro x hx
      rcases List.mem_append.1 hx with hx1 | hx1
      · exact hst x hx1
      · rw [List.mem_singleton.1 hx1]
        omega
    · rw [if_neg hd]
      exact hst

theorem runT_execs_le (evs : List TEvent) : ∀ (st : TState) (B : Nat),
    (∀ ev ∈ evs, timeOf ev ≤ B) → (∀ x ∈ st.execs, x ≤ B) →
    ∀ x ∈ (runT st evs).execs, x ≤ B := by
  induction evs with
  | nil => intro st B _ hst; exact hst
  | cons ev r ih =>
    intro st B hev hst
    have h1 : ∀ x ∈ (stepT st ev).execs, x ≤ B := by
      rw [stepT_execs]
      exact flushBefore_execs_le st (timeOf ev) B
        (hev ev (List.mem_cons_self ev r)) hst
    exact ih (stepT st ev) B (fun q hq => hev q (List.mem_cons_of_mem ev hq)) h1

/-- C4: the throttle gate is a trailing 150ms debounce.  A trigger always
cancels the pending timer and schedules the action 150ms after itself;
a run of triggers spaced less than 150ms apart executes the action exactly
once, 150ms after the most recent trigger; triggers spaced at least 150ms
apart each execute it once; and a trace torn down by
_cleanupResizeWatcher leaves no pending timer, so no action ever runs after
the teardown time. -/
theorem c4_trailing_debounce :
    (∀ (st : TState) (t : Nat), (stepT st (.trigger t)).pending = some (t + 150)) ∧
    (∀ (t : Nat) (rest : List Nat), gapsLtB t rest = true →
      allExecs tInit ((t :: rest).map .trigger) = [lastD rest t + 150]) ∧
    (∀ (t : Nat) (rest : List Nat), gapsGeB t rest = true →
      allExecs tInit ((t :: rest).map .trigger) =
        (t :: rest).map (fun x => x + 150)) ∧
    (∀ (evs : List TEvent) (tc : Nat), (∀ ev ∈ evs, timeOf ev ≤ tc) →
      (runT tInit (evs ++ [.cleanup tc])).pending = none ∧
      ∀ x ∈ allExecs tInit (evs ++ [.cleanup tc]), x ≤ tc) := by
  refine ⟨fun st t => rfl, ?_, ?_, ?_⟩
  · intro t rest h
    rw [List.map_cons, allExecs_cons]
    have hstep : stepT tInit (.trigger t) = ⟨some (t + 150), []⟩ := rfl
    rw [hstep, allExecs_lt rest t [] h]
    rfl
  · intro t rest h
    rw [List.map_cons, allExecs_cons]
    have hstep : stepT tInit (.trigger t) = ⟨some (t + 150), []⟩ := rfl
    rw [hstep, allExecs_ge rest t [] h]
    rfl
  · intro evs tc hb
    have hpend : (runT tInit (evs ++ [.cleanup tc])).pending = none := by
      unfold runT
      rw [List.foldl_append]
      rcases hp : (List.foldl stepT tInit evs).pending with _ | d
      · simp [stepT, flushBefore, hp]
      · by_cases hd : d ≤ tc
        · simp [stepT, flushBefore, hp, hd]
        · simp [stepT, flushBefore, hp, hd]
    refine ⟨hpend, ?_⟩
    intro x hx
    unfold allExecs at hx
    rw [hpend] at hx
    simp only [Option.toList_none, List.append_nil] at hx
    refine runT_execs_le (evs ++ [.cleanup tc]) tInit tc ?_ (by simp [tInit]) x hx
    intro ev hev
    rcases List.mem_append.1 hev with h1 | h1
    · exact hb ev h1
    · rw [List.mem_singleton.1 h1]
      exact le_refl tc

/-- C4 witness: triggers at 0 and 100 (within 150ms) debounce to one
execution at 250, and triggers at 0 and 200 (spaced by at least 150ms)
execute twice. -/
theorem c4_trailing_debounce_witness :
    gapsLtB 0 [100] = true ∧
      allExecs tInit ([0, 100].map .trigger) = [lastD [100] 0 + 150] ∧
      gapsGeB 0 [200] = true ∧
      allExecs tInit ([0, 200].map .trigger) = [0, 200].map (fun x => x + 150) :=
  ⟨by decide, c4_trailing_debounce.2.1 0 [100] (by decide), by decide,
    c4_trailing_debounce.2.2.1 0 [200] (by decide)⟩

theorem resolveQualifies_congr (e1 e2 : Elem) (mq : JStr)
    (h2 : e1.parsedBreakpoints = e2.parsedBreakpoints)
    (h3 : e1.minInlineSize = e2.minInlineSize)
    (h4 : e1.currentSize = e2.currentSize) :
    resolveQualifies e1 mq = resolveQualifies e2 mq := by
  unfold resolveQualifies
  rw [h2, h3, h4]

theorem qOf_congr (e1 e2 : Elem) (mq : JStr)
    (h1 : e1.queryType = e2.queryType)
    (h2 : e1.parsedBreakpoints = e2.parsedBreakpoints)
    (h3 : e1.minInlineSize = e2.minInlineSize)
    (h4 : e1.currentSize = e2.currentSize) : qOf e1 mq = qOf e2 mq := by
  by_cases hv : e2.queryType = "view".toList
  · unfold qOf updateQualifies
    rw [if_pos (h1.trans hv), if_pos hv]
  · unfold qOf
    rw [(updateQualifies_q e1 mq (h1 ▸ hv)).1, (updateQualifies_q e2 mq hv).1,
      resolveQualifies_congr e1 e2 mq h2 h3 h4]

/-- C3 counterexample: a view-mode instance that has already loaded; the
claim says a query mutation while loaded leaves the loaded flag true, but
mutating query from view to container resets it and the fresh qualification
check fails (min-inline-size 800 with no measured size), leaving
loaded = false. -/
theorem c3_counterexample :
    viewLoadedElem.loaded = true ∧
      (mutateAttribute viewLoadedElem "query" (some "container".toList)
          []).1.loaded = false := by
  constructor <;> decide

theorem applyConfigCache_fields (e : Elem) (name : String) (newV : Option JStr) :
    (applyConfigCache e name newV).loaded = e.loaded ∧
    (applyConfigCache e name newV).img = e.img ∧
    (applyConfigCache e name newV).events = e.events ∧
    (applyConfigCache e name newV).attrs = e.attrs := by
  unfold applyConfigCache
  split_ifs <;> simp

theorem mutate_config_while_loaded (e : Elem) (name : String) (v mq : JStr)
    (hl : e.loaded = true) (hns : name ∉ SOURCE_ATTRIBUTES)
    (hni : name ∉ IMG_ATTRIBUTES) (hnq : name ≠ "query")
    (hobs : name ∈ OBSERVED_ATTRIBUTES) :
    (mutateAttribute e name (some v) mq).1.loaded = true ∧
    (mutateAttribute e name (some v) mq).1.img = e.img ∧
    (mutateAttribute e name (some v) mq).1.events = e.events ∧
    (mutateAttribute e name (some v) mq).2 = [] := by
  unfold mutateAttribute
  dsimp only
  by_cases hold : getAttr e name = some v
  · rw [if_neg (fun hc => hc.2 hold)]
    exact ⟨hl, rfl, rfl, rfl⟩
  · rw [if_pos ⟨hobs, hold⟩]
    unfold attributeChanged
    have hf := applyConfigCache_fields
      { e with attrs := setKV e.attrs name v } name (some v)
    rw [if_neg (fun hc => hns hc.2), if_neg (fun hc => hni hc.2),
      if_pos ⟨by rw [hf.1]; exact hl, hnq⟩]
    exact ⟨by rw [hf.1]; exact hl, hf.2.1, hf.2.2.1, rfl⟩

/-- C3 (amended): a query mutation while the instance is loaded is not
exempt from the reset - the callback falls through the loaded guards,
re-renders, resets loaded to false and runs a fresh qualification check, so
afterwards loaded is true exactly when the instance qualifies under the new
query type and a truthy (present and non-empty) src passes _loadImage's
`if (!src)` guard; the other configuration attributes
(min-inline-size, named-breakpoints, view-range-start) are ignored while
loaded apart from cache/attribute updates; and on a not-yet-loaded instance
any changed configuration attribute resets loaded and forces a fresh
qualification check. -/
theorem c3_query_change_amended :
    (∀ (e : Elem) (v mq : JStr), e.loaded = true →
      getAttr e "query" ≠ some v →
      (mutateAttribute e "query" (some v) mq).1.loaded =
        (qOf { e with queryType := queryAfter v } mq &&
          truthyS (getAttr e "src"))) ∧
    (∀ (e : Elem) (name : String) (v mq : JStr), e.loaded = true →
      (name = "min-inline-size" ∨ name = "named-breakpoints" ∨
        name = "view-range-start") →
      ((mutateAttribute e name (some v) mq).1.loaded = true ∧
        (mutateAttribute e name (some v) mq).1.img = e.img ∧
        (mutateAttribute e name (some v) mq).1.events = e.events ∧
        (mutateAttribute e name (some v) mq).2 = [])) ∧
    (∀ (e : Elem) (name : String) (v mq : JStr), e.loaded = false →
      name ∈ CONFIG_ATTRIBUTES → getAttr e name ≠ some v →
      mutateAttribute e name (some v) mq =
        checkAndLoad
          { render (applyConfigCache { e with attrs := setKV e.attrs name v }
              name (some v)) with
            loaded := false } mq) := by
  refine ⟨?_, ?_, ?_⟩
  ·
      intro e v mq hl hchg
      unfold mutateAttribute
      dsimp only
      rw [if_pos ⟨(by decide : ("query" : String) ∈ OBSERVED_ATTRIBUTES), hchg⟩]
      simp only [attributeChanged, applyConfigCache, hl, SOURCE_ATTRIBUTES,
        IMG_ATTRIBUTES, CONFIG_ATTRIBUTES, List.mem_cons, List.not_mem_nil,
        String.reduceEq, reduceIte, or_false, false_or, true_and, or_true,
        if_true, if_false, and_true, and_false, List.mem_singleton, or_self,
        ne_eq, not_true_eq_false, false_and]
      rw [checkAndLoad_loaded_of_notloaded _ mq rfl]
      congr 1
      · refine qOf_congr _ _ mq ?_ ?_ ?_ ?_
        · dsimp only
          rw [(render_fields _).2.2.2.1]
          unfold truthyS queryAfter
          rcases hv : v.isEmpty <;> simp [hv]
        · dsimp only
          rw [(render_fields _).2.2.2.2.2.1]
        · dsimp only
          rw [(render_fields _).2.2.2.2.2.2.1]
        · dsimp only
          rw [(render_fields _).2.2.2.2.1]
      · refine congrArg truthyS ?_
        unfold getAttr
        dsimp only
        rw [(render_fields _).2.2.1]
        dsimp only
        rw [getKV_setKV_ne _ _ _ _ (by decide)]
  · intro e name v mq hl hmem
    rcases hmem with h | h | h <;> subst h <;>
      exact mutate_config_while_loaded e _ v mq hl (by decide) (by decide)
        (by decide) (by decide)
  ·
      intro e name v mq hl hmem hchg
      unfold mutateAttribute
      dsimp only
      rw [if_pos ⟨(by
        unfold OBSERVED_ATTRIBUTES
        exact List.mem_append.2 (Or.inr hmem)), hchg⟩]
      fin_cases hmem <;>
        simp only [attributeChanged, applyConfigCache, hl, SOURCE_ATTRIBUTES,
          IMG_ATTRIBUTES, CONFIG_ATTRIBUTES, List.mem_cons, List.not_mem_nil,
          String.reduceEq, reduceIte, or_false, false_or, true_and, or_true,
          if_true, if_false, and_true, and_false, List.mem_singleton, or_self,
          false_and, Bool.false_eq_true]

/-- C3 witness: the query-change branch applied to the loaded view-mode
instance switching to container mode. -/
theorem c3_query_change_amended_witness :
    viewLoadedElem.loaded = true ∧
      getAttr viewLoadedElem "query" ≠ some "container".toList ∧
      (mutateAttribute viewLoadedElem "query" (some "container".toList)
          []).1.loaded =
        (qOf { viewLoadedElem with
            queryType := queryAfter "container".toList } [] &&
          truthyS (getAttr viewLoadedElem "src")) :=
  ⟨by decide, by decide,
    c3_query_change_amended.1 viewLoadedElem "container".toList []
      (by decide) (by decide)⟩

theorem digitsToNat_append (a : List Char) (c : Char) :
    digitsToNat (a ++ [c]) = 10 * digitsToNat a + charVal c := by
  simp [digitsToNat, List.foldl_append]

theorem charVal_digitChar (d : Nat) (h : d < 10) :
    charVal (Nat.digitChar d) = d := by
  interval_cases d <;> decide

theorem isDigit_digitChar (d : Nat) (h : d < 10) :
    (Nat.digitChar d).isDigit = true := by
  interval_cases d <;> decide

theorem natStrGo_spec : ∀ f : Nat, ∀ n : Nat, n < f →
    digitsToNat (natStrGo f n) = n ∧ natStrGo f n ≠ [] ∧
      ∀ c ∈ natStrGo f n, c.isDigit = true := by
  intro f
  induction f with
  | zero => intro n h; omega
  | succ f ih =>
    intro n h
    by_cases h10 : n < 10
    · unfold natStrGo
      rw [if_pos h10]
      refine ⟨?_, by simp, ?_⟩
      · show digitsToNat ([] ++ [Nat.digitChar n]) = n
        rw [digitsToNat_append]
        simp [digitsToNat, charVal_digitChar n h10]
      · intro c hc
        rw [List.mem_singleton.1 hc]
        exact isDigit_digitChar n h10
    · have hdiv : n / 10 < f := by
        have h1 : n / 10 < n := Nat.div_lt_self (by omega) (by omega)
        omega
      obtain ⟨ih1, ih2, ih3⟩ := ih (n / 10) hdiv
      unfold natStrGo
      rw [if_neg h10]
      refine ⟨?_, by simp, ?_⟩
      · rw [digitsToNat_append, ih1, charVal_digitChar (n % 10) (Nat.mod_lt n (by omega))]
        omega
      · intro c hc
        rcases List.mem_append.1 hc with h1 | h1
        · exact ih3 c h1
        · rw [List.mem_singleton.1 h1]
          exact isDigit_digitChar (n % 10) (Nat.mod_lt n (by omega))

theorem natStr_spec (n : Nat) :
    digitsToNat (natStr n) = n ∧ natStr n ≠ [] ∧
      ∀ c ∈ natStr n, c.isDigit = true :=
  natStrGo_spec (n + 1) n (by omega)

theorem takeWhile_append_all (p : Char → Bool) :
    ∀ l r : List Char, (∀ c ∈ l, p c = true) →
      (l ++ r).takeWhile p = l ++ r.takeWhile p ∧
      (l ++ r).dropWhile p = r.dropWhile p := by
  intro l
  induction l with
  | nil => intro r _; simp
  | cons c cl ih =>
    intro r h
    have hc : p c = true := h c (List.mem_cons_self c cl)
    have hrec := ih r (fun q hq => h q (List.mem_cons_of_mem c hq))
    simp only [List.cons_append, List.takeWhile_cons, List.dropWhile_cons, hc,
      if_true, hrec.1, hrec.2]
    simp

theorem not_ws_of_digit (c : Char) (h : c.isDigit = true) :
    isWsChar c = false := by
  cases hw : isWsChar c with
  | false => rfl
  | true =>
    unfold isWsChar at hw
    simp only [Bool.or_eq_true, decide_eq_true_eq] at hw
    rcases hw with ((((h1 | h1) | h1) | h1) | h1) | h1 <;> subst h1 <;>
      exact absurd h (by decide)

theorem digit_ne_dash (c : Char) (h : c.isDigit = true) : c ≠ '-' := by
  intro heq
  subst heq
  exact absurd h (by decide)

theorem jsTrim_cons_append (c : Char) (m : List Char) (d : Char)
    (h1 : isWsChar c = false) (h2 : isWsChar d = false) :
    jsTrim (c :: (m ++ [d])) = c :: (m ++ [d]) := by
  unfold jsTrim
  rw [List.dropWhile_cons]
  simp only [h1, Bool.false_eq_true, if_false]
  rw [show (c :: (m ++ [d])).reverse = d :: (m.reverse ++ [c]) by simp]
  rw [List.dropWhile_cons]
  simp only [h2, Bool.false_eq_true, if_false]
  simp

theorem entryHead_entry (c : Char) (X : List Char) (hc : isWsChar c = false) :
    entryHead ('e' :: 'n' :: 't' :: 'r' :: 'y' :: ' ' :: c :: X) =
      some (c :: X) := by
  unfold entryHead
  change (if (List.takeWhile isWsChar (' ' :: c :: X)).isEmpty = true then
      none
    else some (List.dropWhile isWsChar (' ' :: c :: X))) = some (c :: X)
  rw [List.takeWhile_cons, List.dropWhile_cons]
  simp only [show isWsChar ' ' = true by decide, if_true]
  rw [List.takeWhile_cons, List.dropWhile_cons]
  simp only [hc, Bool.false_eq_true, if_false]
  simp

theorem numTail_pct (ds : List Char) (hne : ds ≠ [])
    (hd : ∀ c ∈ ds, c.isDigit = true) :
    numTail (ds ++ ['%']) = some (⟨(digitsToNat ds : Int), 1⟩, ['%']) := by
  obtain ⟨d, dt, rfl⟩ : ∃ d dt, ds = d :: dt := by
    cases ds with
    | nil => exact absurd rfl hne
    | cons d dt => exact ⟨d, dt, rfl⟩
  have hdd : d.isDigit = true := hd d (List.mem_cons_self d dt)
  unfold numTail
  simp only [List.cons_append]
  rw [if_neg (digit_ne_dash d hdd)]
  dsimp only
  have htw := takeWhile_append_all Char.isDigit (d :: dt) ['%'] hd
  simp only [List.cons_append] at htw
  rw [htw.1, htw.2]
  simp only [show (['%'].takeWhile Char.isDigit) = [] by decide,
    show (['%'].dropWhile Char.isDigit) = ['%'] by decide, List.append_nil]
  rw [if_neg (by simp)]
  simp [mkNum, pow10, digitsToNat]

theorem numTail_px_head (ds : List Char) (hne : ds ≠ [])
    (hd : ∀ c ∈ ds, c.isDigit = true) :
    numTail ('-' :: (ds ++ ['p', 'x'])) =
      some (⟨-(digitsToNat ds : Int), 1⟩, ['p', 'x']) := by
  unfold numTail
  dsimp only
  rw [if_pos rfl]
  dsimp only
  have htw := takeWhile_append_all Char.isDigit ds ['p', 'x'] hd
  rw [htw.1, htw.2]
  simp only [show (['p', 'x'].takeWhile Char.isDigit) = [] by decide,
    show (['p', 'x'].dropWhile Char.isDigit) = ['p', 'x'] by decide,
    List.append_nil]
  rw [if_neg (by simpa using hne)]
  simp [mkNum, pow10, digitsToNat]

theorem matchPercent_natStr (n : Nat) :
    matchPercent ("entry ".toList ++ natStr n ++ "%".toList) =
      some ⟨(n : Int), 1⟩ := by
  obtain ⟨hval, hne, hdig⟩ := natStr_spec n
  obtain ⟨d, dt, hds⟩ : ∃ d dt, natStr n = d :: dt := by
    cases hh : natStr n with
    | nil => exact absurd hh hne
    | cons d dt => exact ⟨d, dt, rfl⟩
  have hshape : "entry ".toList ++ natStr n ++ "%".toList =
      'e' :: 'n' :: 't' :: 'r' :: 'y' :: ' ' :: d :: (dt ++ ['%']) := by
    rw [hds]
    rfl
  unfold matchPercent
  rw [hshape, entryHead_entry d (dt ++ ['%'])
    (not_ws_of_digit d (by rw [hds] at hdig; exact hdig d (List.mem_cons_self d dt)))]
  dsimp only
  have hnum := numTail_pct (natStr n) hne hdig
  rw [hds] at hnum hval
  simp only [List.cons_append] at hnum
  rw [hnum]
  dsimp only
  rw [if_pos rfl, hval]

theorem matchPercent_px_none (n : Nat) :
    matchPercent ("entry -".toList ++ natStr n ++ "px".toList) = none := by
  obtain ⟨hval, hne, hdig⟩ := natStr_spec n
  have hshape : "entry -".toList ++ natStr n ++ "px".toList =
      'e' :: 'n' :: 't' :: 'r' :: 'y' :: ' ' :: '-' :: (natStr n ++ ['p', 'x']) := by
    rfl
  unfold matchPercent
  rw [hshape, entryHead_entry '-' (natStr n ++ ['p', 'x']) (by decide)]
  dsimp only
  rw [numTail_px_head (natStr n) hne hdig]
  simp

theorem matchPx_natStr (n : Nat) :
    matchPx ("entry -".toList ++ natStr n ++ "px".toList) =
      some n := by
  obtain ⟨hval, hne, hdig⟩ := natStr_spec n
  have hshape : "entry -".toList ++ natStr n ++ "px".toList =
      'e' :: 'n' :: 't' :: 'r' :: 'y' :: ' ' :: '-' :: (natStr n ++ ['p', 'x']) := by
    rfl
  unfold matchPx
  rw [hshape, entryHead_entry '-' (natStr n ++ ['p', 'x']) (by decide)]
  change (if (List.takeWhile Char.isDigit (natStr n ++ ['p', 'x'])).isEmpty = true
      then none
    else
      if List.dropWhile Char.isDigit (natStr n ++ ['p', 'x']) = ['p', 'x'] then
        some (digitsToNat (List.takeWhile Char.isDigit (natStr n ++ ['p', 'x'])))
      else none) = some n
  have htw := takeWhile_append_all Char.isDigit (natStr n) ['p', 'x'] hdig
  rw [htw.1, htw.2]
  simp only [show (['p', 'x'].takeWhile Char.isDigit) = [] by decide,
    show (['p', 'x'].dropWhile Char.isDigit) = ['p', 'x'] by decide,
    List.append_nil]
  rw [if_neg (by simpa using hne)]
  simp [hval]

theorem parseViewRange_intPct (n : Nat) :
    parseViewRange ("entry ".toList ++ natStr n ++ "%".toList) =
      if n ≤ 100 then (⟨"0px".toList, fracMk (n : Int) 100⟩, none)
      else (viewRangeDefaults, some .outOfRangePercentage) := by
  have htrim : jsTrim ("entry ".toList ++ natStr n ++ "%".toList) =
      "entry ".toList ++ natStr n ++ "%".toList :=
    jsTrim_cons_append 'e' ("ntry ".toList ++ natStr n) '%' (by decide)
      (by decide)
  have hne2 : ("entry ".toList ++ natStr n ++ "%".toList).isEmpty = false := rfl
  unfold parseViewRange
  rw [if_neg (by simp [hne2]), htrim]
  dsimp only
  rw [matchPercent_natStr n]
  have h0 : fracLe fracZero ⟨(n : Int), 1⟩ = true := by
    simp [fracLe, fracZero]
  by_cases hn : n ≤ 100
  · have h100 : fracLe ⟨(n : Int), 1⟩ ⟨100, 1⟩ = true := by
      simp [fracLe]
      exact_mod_cast hn
    dsimp only
    rw [h0, h100]
    simp [hn]
  · have h100 : fracLe ⟨(n : Int), 1⟩ ⟨100, 1⟩ = false := by
      simp [fracLe]
      omega
    dsimp only
    rw [h0, h100]
    simp [hn]

theorem parseViewRange_pxPreload (n : Nat) :
    parseViewRange ("entry -".toList ++ natStr n ++ "px".toList) =
      (⟨pxMargin n, fracZero⟩, none) := by
  have hsh : "entry -".toList ++ natStr n ++ "px".toList =
      'e' :: (("ntry -".toList ++ natStr n ++ ['p']) ++ ['x']) := by
    simp
  have htrim : jsTrim ("entry -".toList ++ natStr n ++ "px".toList) =
      "entry -".toList ++ natStr n ++ "px".toList := by
    rw [hsh]
    exact jsTrim_cons_append 'e' _ 'x' (by decide) (by decide)
  have hne2 : ("entry -".toList ++ natStr n ++ "px".toList).isEmpty = false := rfl
  unfold parseViewRange
  rw [if_neg (by simp [hne2]), htrim]
  dsimp only
  rw [matchPercent_px_none n]
  dsimp only
  rw [matchPx_natStr n]

theorem parseViewRange_invalid (s : JStr) (hne : s ≠ [])
    (hpct : matchPercent (jsTrim s) = none) (hpx : matchPx (jsTrim s) = none) :
    parseViewRange s = (viewRangeDefaults, some .invalidViewRangeFormat) := by
  unfold parseViewRange
  rw [if_neg (by simpa [List.isEmpty_iff] using hne)]
  dsimp only
  rw [hpct]
  dsimp only
  rw [hpx]

theorem numTail_dec (ds fs : List Char) (hne : ds ≠ [])
    (hd : ∀ c ∈ ds, c.isDigit = true) (hfne : fs ≠ [])
    (hfd : ∀ c ∈ fs, c.isDigit = true) :
    numTail (ds ++ '.' :: (fs ++ ['%'])) =
      some (⟨((digitsToNat ds * pow10 fs.length + digitsToNat fs : Nat) : Int),
        pow10 fs.length⟩, ['%']) := by
  obtain ⟨d, dt, rfl⟩ : ∃ d dt, ds = d :: dt := by
    cases ds with
    | nil => exact absurd rfl hne
    | cons d dt => exact ⟨d, dt, rfl⟩
  have hdd : d.isDigit = true := hd d (List.mem_cons_self d dt)
  unfold numTail
  simp only [List.cons_append]
  rw [if_neg (digit_ne_dash d hdd)]
  dsimp only
  have htw := takeWhile_append_all Char.isDigit (d :: dt) ('.' :: (fs ++ ['%'])) hd
  simp only [List.cons_append] at htw
  rw [htw.1, htw.2]
  simp only [List.takeWhile_cons, List.dropWhile_cons,
    show ('.' : Char).isDigit = false by decide, Bool.false_eq_true, if_false,
    List.append_nil]
  rw [if_neg (by simp)]
  have htw2 := takeWhile_append_all Char.isDigit fs ['%'] hfd
  rw [htw2.1, htw2.2]
  simp only [show (['%'].takeWhile Char.isDigit) = [] by decide,
    show (['%'].dropWhile Char.isDigit) = ['%'] by decide, List.append_nil]
  rw [if_neg (by simpa using hfne)]
  simp [mkNum]

theorem matchPercent_dec (a : Nat) (fs : List Char) (hfne : fs ≠ [])
    (hfd : ∀ c ∈ fs, c.isDigit = true) :
    matchPercent ("entry ".toList ++ natStr a ++ ('.' :: fs) ++ "%".toList) =
      some ⟨((a * pow10 fs.length + digitsToNat fs : Nat) : Int),
        pow10 fs.length⟩ := by
  obtain ⟨hval, hne, hdig⟩ := natStr_spec a
  obtain ⟨d, dt, hds⟩ : ∃ d dt, natStr a = d :: dt := by
    cases hh : natStr a with
    | nil => exact absurd hh hne
    | cons d dt => exact ⟨d, dt, rfl⟩
  have hshape : "entry ".toList ++ natStr a ++ ('.' :: fs) ++ "%".toList =
      'e' :: 'n' :: 't' :: 'r' :: 'y' :: ' ' :: d :: (dt ++ '.' :: (fs ++ ['%'])) := by
    rw [hds]
    simp
  unfold matchPercent
  rw [hshape, entryHead_entry d (dt ++ '.' :: (fs ++ ['%']))
    (not_ws_of_digit d (by rw [hds] at hdig; exact hdig d (List.mem_cons_self d dt)))]
  dsimp only
  have hnum := numTail_dec (natStr a) fs hne hdig hfne hfd
  rw [hds] at hnum hval
  simp only [List.cons_append] at hnum
  rw [hnum]
  dsimp only
  rw [if_pos rfl, hval]

theorem parseViewRange_decPct (a : Nat) (fs : List Char) (hfne : fs ≠ [])
    (hfd : ∀ c ∈ fs, c.isDigit = true) :
    parseViewRange ("entry ".toList ++ natStr a ++ ('.' :: fs) ++ "%".toList) =
      if a * pow10 fs.length + digitsToNat fs ≤ 100 * pow10 fs.length then
        (⟨"0px".toList,
          fracMk ((a * pow10 fs.length + digitsToNat fs : Nat) : Int)
            (pow10 fs.length * 100)⟩, none)
      else (viewRangeDefaults, some .outOfRangePercentage) := by
  have htrim : jsTrim ("entry ".toList ++ natStr a ++ ('.' :: fs) ++ "%".toList) =
      "entry ".toList ++ natStr a ++ ('.' :: fs) ++ "%".toList := by
    rw [show "entry ".toList ++ natStr a ++ ('.' :: fs) ++ "%".toList =
      'e' :: (("ntry ".toList ++ natStr a ++ ('.' :: fs)) ++ ['%']) by simp]
    exact jsTrim_cons_append 'e' _ '%' (by decide) (by decide)
  have hne2 : ("entry ".toList ++ natStr a ++ ('.' :: fs) ++ "%".toList).isEmpty =
      false := rfl
  unfold parseViewRange
  rw [if_neg (by simp [hne2]), htrim]
  dsimp only
  rw [matchPercent_dec a fs hfne hfd]
  have h0 : fracLe fracZero
      ⟨((a * pow10 fs.length + digitsToNat fs : Nat) : Int), pow10 fs.length⟩ =
      true := by
    simp [fracLe, fracZero]
    positivity
  by_cases hn : a * pow10 fs.length + digitsToNat fs ≤ 100 * pow10 fs.length
  · have h100 : fracLe
        ⟨((a * pow10 fs.length + digitsToNat fs : Nat) : Int), pow10 fs.length⟩
        ⟨100, 1⟩ = true := by
      simp only [fracLe, decide_eq_true_eq, Nat.cast_one, mul_one]
      push_cast
      exact_mod_cast hn
    dsimp only
    rw [h0, h100]
    simp [hn]
  · have h100 : fracLe
        ⟨((a * pow10 fs.length + digitsToNat fs : Nat) : Int), pow10 fs.length⟩
        ⟨100, 1⟩ = false := by
      simp only [fracLe, decide_eq_false_iff_not, Nat.cast_one, mul_one, not_le]
      push_cast
      exact_mod_cast Nat.lt_of_not_le hn
    dsimp only
    rw [h0, h100]
    simp [hn]

/-- C9 counterexample: the claim maps any string other than the two integer
patterns to the defaults with a warning, but the input with the decimal
percentage 50.5 - which matches neither integer pattern, as shown for the
percent grammar - parses to a threshold of 101/200 with no warning and a
non-default result. -/
theorem c9_counterexample :
    parseViewRange "entry 50.5%".toList =
      (⟨"0px".toList, ⟨101, 200⟩⟩, none) ∧
    (⟨"0px".toList, (⟨101, 200⟩ : Frac)⟩ : ViewRange) ≠ viewRangeDefaults ∧
    (∀ m : Nat, "entry 50.5%".toList ≠
      "entry ".toList ++ natStr m ++ "%".toList) := by
  refine ⟨by decide, by decide, ?_⟩
  intro m h
  have hsp := natStr_spec m
  rw [List.append_assoc] at h
  have h2 : ['5', '0', '.', '5', '%'] = natStr m ++ "%".toList :=
    congrArg (List.drop 6) h
  have h4 : ['5', '0', '.', '5'] = natStr m := by
    have h3 := congrArg List.dropLast h2
    simpa [List.dropLast_concat] using h3
  have hdot : '.' ∈ natStr m := by
    rw [← h4]
    decide
  exact absurd (hsp.2.2 '.' hdot) (by decide)

/-- C9 (amended): the view-range parser is total, and maps "entry N%" for
any decimal numeral N - an integer A, or A.F with a non-empty digit string
F of fractional digits - with value at most 100 to threshold N/100 with
zero root margin (so e.g. "entry 12.5%" yields threshold 1/8, accepted,
not invalid), any such percentage above 100 to the defaults with an
out-of-range warning, "entry -Npx" to a bottom preload margin of N pixels
with threshold 0, an empty value to the defaults silently, and any string
matching neither regex pattern to the defaults with an invalid-format
warning. The decimal value A.F with k fractional digits is in [0,100]
exactly when A*10^k + F <= 100*10^k, and N/100 is then the fraction
(A*10^k + F)/(10^k*100). -/
theorem c9_view_range_amended :
    (∀ n : Nat, n ≤ 100 →
      parseViewRange ("entry ".toList ++ natStr n ++ "%".toList) =
        (⟨"0px".toList, fracMk (n : Int) 100⟩, none)) ∧
    (∀ n : Nat, 100 < n →
      parseViewRange ("entry ".toList ++ natStr n ++ "%".toList) =
        (viewRangeDefaults, some .outOfRangePercentage)) ∧
    (∀ a : Nat, ∀ fs : List Char, fs ≠ [] → (∀ c ∈ fs, c.isDigit = true) →
      a * pow10 fs.length + digitsToNat fs ≤ 100 * pow10 fs.length →
      parseViewRange ("entry ".toList ++ natStr a ++ ('.' :: fs) ++ "%".toList) =
        (⟨"0px".toList,
          fracMk ((a * pow10 fs.length + digitsToNat fs : Nat) : Int)
            (pow10 fs.length * 100)⟩, none)) ∧
    (∀ a : Nat, ∀ fs : List Char, fs ≠ [] → (∀ c ∈ fs, c.isDigit = true) →
      100 * pow10 fs.length < a * pow10 fs.length + digitsToNat fs →
      parseViewRange ("entry ".toList ++ natStr a ++ ('.' :: fs) ++ "%".toList) =
        (viewRangeDefaults, some .outOfRangePercentage)) ∧
    (∀ n : Nat,
      parseViewRange ("entry -".toList ++ natStr n ++ "px".toList) =
        (⟨pxMargin n, fracZero⟩, none)) ∧
    (parseViewRange [] = (viewRangeDefaults, none)) ∧
    (parseViewRange "entry 12.5%".toList =
      (⟨"0px".toList, ⟨1, 8⟩⟩, none)) ∧
    (∀ s : JStr, s ≠ [] → matchPercent (jsTrim s) = none →
      matchPx (jsTrim s) = none →
      parseViewRange s = (viewRangeDefaults, some .invalidViewRangeFormat)) := by
  refine ⟨?_, ?_, ?_, ?_, fun n => parseViewRange_pxPreload n, by decide,
    by decide, fun s h1 h2 h3 => parseViewRange_invalid s h1 h2 h3⟩
  · intro n hn
    rw [parseViewRange_intPct n, if_pos hn]
  · intro n hn
    rw [parseViewRange_intPct n, if_neg (by omega)]
  · intro a fs h1 h2 h3
    rw [parseViewRange_decPct a fs h1 h2, if_pos h3]
  · intro a fs h1 h2 h3
    rw [parseViewRange_decPct a fs h1 h2, if_neg (by omega)]

/-- C9 witness: the integer-percentage branch applied at 25, giving
threshold 1/4. -/
theorem c9_view_range_amended_witness :
    25 ≤ 100 ∧
      parseViewRange ("entry ".toList ++ natStr 25 ++ "%".toList) =
        (⟨"0px".toList, fracMk ((25 : Nat) : Int) 100⟩, none) :=
  ⟨by decide, c9_view_range_amended.1 25 (by decide)⟩
